import Mathlib

/-!
Verification development for the minijail sandbox engine (libminijail.c).

The C sources are shallowly embedded: byte strings are `List Nat` (each
element one `char` value, `0` being the NUL terminator which is kept
implicit — a stored string never contains `0`), machine integers are
`Nat`/`Int` with explicit range side conditions mirroring the C types,
and the raw `memcpy` of `struct minijail` over the pipe is modelled by an
injective fixed-width byte encoding of the fixed-size record (the struct
layout itself is not observable to the program: only the memcpy
round-trip and the null/non-null state of the serialized pointers are).
Fallible C functions return an explicit result type; `die`/`pdie`
(process termination) is a distinguished outcome.
-/

namespace MJ

/-- Byte value of a `Bool` stored in a C bit-field. -/
def b2n (b : Bool) : Nat := if b then 1 else 0

/-- The flag bit-field block of `struct minijail` (libminijail.c, lines 77-100). -/
structure Flags where
  uid : Bool := false
  gid : Bool := false
  caps : Bool := false
  vfs : Bool := false
  pids : Bool := false
  net : Bool := false
  seccomp : Bool := false
  readonly : Bool := false
  usergroups : Bool := false
  ptrace : Bool := false
  no_new_privs : Bool := false
  seccomp_filter : Bool := false
  log_seccomp_filter : Bool := false
  chroot : Bool := false
  mount_tmp : Bool := false
  chdir : Bool := false
  stack_limit : Bool := false
  time_limit : Bool := false
  output_limit : Bool := false
  memory_limit : Bool := false
  meta_file : Bool := false
deriving DecidableEq

/-- One BPF instruction, `struct sock_filter` (u16 code, u8 jt, u8 jf, u32 k). -/
structure SockFilter where
  code : Nat
  jt : Nat
  jf : Nat
  k : Nat
deriving DecidableEq

/-- One bind-mount directive, `struct binding` (libminijail.c, lines 65-70).
The `next` pointer is represented by membership in the policy's list. -/
structure Binding where
  src : List Nat
  dest : List Nat
  writeable : Int
deriving DecidableEq

/-- `struct minijail` (libminijail.c, lines 72-121).  `bindings` is the
linked list from `bindings_head` to `bindings_tail` in order; `user`,
`chrootdir`, `chdir` are `none` when the C pointer is NULL; `filter_prog`
is `none` when NULL, otherwise the `sock_fprog` contents (its `len` field
always equals the list length wherever the program writes it);
`meta_file` records whether the `FILE *` is non-NULL. -/
structure Minijail where
  flags : Flags := {}
  uid : Nat := 0
  gid : Nat := 0
  usergid : Nat := 0
  user : Option (List Nat) := none
  caps : Nat := 0
  initpid : Int := 0
  filter_len : Nat := 0
  binding_count : Nat := 0
  chrootdir : Option (List Nat) := none
  chdir : Option (List Nat) := none
  filter_prog : Option (List SockFilter) := none
  bindings : List Binding := []
  stack_limit : Int := 0
  time_limit : Int := 0
  memory_limit : Int := 0
  output_limit : Int := 0
  meta_file : Bool := false
deriving DecidableEq

/-- `minijail_new` — `calloc` produces the all-zero record. -/
def minijail_new : Minijail := {}

/-- Outcome of a fallible builder call: normal return with the (possibly
updated) policy, an error return code with the policy as the call left it,
or process termination through `die`/`pdie`. -/
inductive CRes where
  | ok (j : Minijail)
  | err (code : Int) (j : Minijail)
  | died
deriving DecidableEq

/-- Linux errno values used by the builder surface (system headers). -/
def EINVAL : Int := 22

def ENOMEM : Int := 12

def E2BIG : Int := 7

/-- `minijail_change_uid` (lines 171-177): dies on uid 0. -/
def minijail_change_uid (j : Minijail) (uid : Nat) : CRes :=
  if uid = 0 then .died
  else .ok { j with uid := uid, flags := { j.flags with uid := true } }

/-- `minijail_change_gid` (lines 179-185): dies on gid 0. -/
def minijail_change_gid (j : Minijail) (gid : Nat) : CRes :=
  if gid = 0 then .died
  else .ok { j with gid := gid, flags := { j.flags with gid := true } }

/-- `minijail_change_user` (lines 187-219).  The `getpwnam_r` lookup is the
environment: `pw = some (pw_uid, pw_gid)` on success, `none` on failure
(the C then returns -1 with the policy untouched).  Allocation is assumed
to succeed.  On lookup success the code calls `minijail_change_uid`, which
dies when the user's uid is 0. -/
def minijail_change_user (j : Minijail) (user : List Nat)
    (pw : Option (Nat × Nat)) : CRes :=
  match pw with
  | none => .err (-1) j
  | some (pw_uid, pw_gid) =>
    match minijail_change_uid j pw_uid with
    | .ok j1 => .ok { j1 with user := some user, usergid := pw_gid }
    | .err c j1 => .err c j1
    | .died => .died

/-- `minijail_change_group` (lines 221-249), with the `getgrnam_r` lookup as
environment.  On success the code calls `minijail_change_gid`, which dies
when the group's gid is 0. -/
def minijail_change_group (j : Minijail) (gr : Option Nat) : CRes :=
  match gr with
  | none => .err (-1) j
  | some gr_gid => minijail_change_gid j gr_gid

/-- `minijail_use_seccomp` (lines 251-254). -/
def minijail_use_seccomp (j : Minijail) : Minijail :=
  { j with flags := { j.flags with seccomp := true } }

/-- `minijail_no_new_privs` (lines 256-259). -/
def minijail_no_new_privs (j : Minijail) : Minijail :=
  { j with flags := { j.flags with no_new_privs := true } }

/-- `minijail_use_seccomp_filter` (lines 261-264). -/
def minijail_use_seccomp_filter (j : Minijail) : Minijail :=
  { j with flags := { j.flags with seccomp_filter := true } }

/-- `minijail_log_seccomp_filter_failures` (lines 266-269). -/
def minijail_log_seccomp_filter_failures (j : Minijail) : Minijail :=
  { j with flags := { j.flags with log_seccomp_filter := true } }

/-- `minijail_use_caps` (lines 271-275). -/
def minijail_use_caps (j : Minijail) (capmask : Nat) : Minijail :=
  { j with caps := capmask, flags := { j.flags with caps := true } }

/-- `minijail_namespace_vfs` (lines 277-280). -/
def minijail_namespace_vfs (j : Minijail) : Minijail :=
  { j with flags := { j.flags with vfs := true } }

/-- `minijail_namespace_pids` (lines 282-287): sets vfs, readonly and pids. -/
def minijail_namespace_pids (j : Minijail) : Minijail :=
  { j with flags := { j.flags with vfs := true, readonly := true, pids := true } }

/-- `minijail_namespace_net` (lines 289-292). -/
def minijail_namespace_net (j : Minijail) : Minijail :=
  { j with flags := { j.flags with net := true } }

/-- `minijail_remount_readonly` (lines 294-298). -/
def minijail_remount_readonly (j : Minijail) : Minijail :=
  { j with flags := { j.flags with vfs := true, readonly := true } }

/-- `minijail_inherit_usergroups` (lines 300-303). -/
def minijail_inherit_usergroups (j : Minijail) : Minijail :=
  { j with flags := { j.flags with usergroups := true } }

/-- `minijail_disable_ptrace` (lines 305-308). -/
def minijail_disable_ptrace (j : Minijail) : Minijail :=
  { j with flags := { j.flags with ptrace := true } }

/-- `minijail_enter_chroot` (lines 310-319). -/
def minijail_enter_chroot (j : Minijail) (dir : List Nat) : CRes :=
  if j.chrootdir ≠ none then .err (-EINVAL) j
  else .ok { j with chrootdir := some dir, flags := { j.flags with chroot := true } }

/-- `minijail_mount_tmp` (lines 321-324). -/
def minijail_mount_tmp (j : Minijail) : Minijail :=
  { j with flags := { j.flags with mount_tmp := true } }

/-- `minijail_chroot_chdir` (lines 326-338): requires an existing chrootdir,
no chdir yet, and an absolute directory (leading '/' = byte 47). -/
def minijail_chroot_chdir (j : Minijail) (dir : List Nat) : CRes :=
  if j.chrootdir = none then .err (-EINVAL) j
  else if j.chdir ≠ none then .err (-EINVAL) j
  else if dir.headD 0 ≠ 47 then .err (-EINVAL) j
  else .ok { j with chdir := some dir, flags := { j.flags with chdir := true } }

/-- `minijail_bind` (lines 340-380): rejects a non-absolute dest, forces the
vfs namespace, and appends the binding at the tail of the list. -/
def minijail_bind (j : Minijail) (src dest : List Nat) (writeable : Int) : CRes :=
  if dest.headD 0 ≠ 47 then .err (-EINVAL) j
  else
    .ok { minijail_namespace_vfs j with
          bindings := j.bindings ++ [{ src := src, dest := dest, writeable := writeable }],
          binding_count := j.binding_count + 1 }

/-- `minijail_parse_seccomp_filters` (lines 382-399).  `fopen` success and the
result of the external `compile_filter` are the environment; either failure
makes the call die (`pdie`/`die`).  On success it stores the compiled
program and its length (a `sock_fprog` carries the length as an unsigned
short). -/
def minijail_parse_seccomp_filters (j : Minijail) (fopenOk : Bool)
    (compiled : Option (List SockFilter)) : CRes :=
  if !fopenOk then .died
  else
    match compiled with
    | none => .died
    | some prog =>
      .ok { j with filter_len := prog.length, filter_prog := some prog }

/-- `minijail_meta_file` (lines 1660-1668): sets the flag first, then tries
`fopen`; on fopen failure it returns -1 with the flag still set. -/
def minijail_meta_file (j : Minijail) (fopenOk : Bool) : CRes :=
  let j1 := { j with flags := { j.flags with meta_file := true } }
  if fopenOk then .ok { j1 with meta_file := true }
  else .err (-1) { j1 with meta_file := false }

/-- `minijail_stack_limit` (lines 1636-1640). -/
def minijail_stack_limit (j : Minijail) (v : Int) : Minijail :=
  { j with stack_limit := v, flags := { j.flags with stack_limit := true } }

/-- `minijail_time_limit` (lines 1642-1646). -/
def minijail_time_limit (j : Minijail) (v : Int) : Minijail :=
  { j with time_limit := v, flags := { j.flags with time_limit := true } }

/-- `minijail_output_limit` (lines 1648-1652). -/
def minijail_output_limit (j : Minijail) (v : Int) : Minijail :=
  { j with output_limit := v, flags := { j.flags with output_limit := true } }

/-- `minijail_memory_limit` (lines 1654-1658). -/
def minijail_memory_limit (j : Minijail) (v : Int) : Minijail :=
  { j with memory_limit := v, flags := { j.flags with memory_limit := true } }

/-- A C byte string: every stored char is non-NUL and fits in a byte. -/
def ByteOk (s : List Nat) : Prop := ∀ b ∈ s, 0 < b ∧ b < 256

instance (s : List Nat) : Decidable (ByteOk s) := by
  unfold ByteOk; infer_instance

/-- Field ranges of one `struct sock_filter`. -/
def InstrOk (i : SockFilter) : Prop :=
  i.code < 2 ^ 16 ∧ i.jt < 2 ^ 8 ∧ i.jf < 2 ^ 8 ∧ i.k < 2 ^ 32

instance (i : SockFilter) : Decidable (InstrOk i) := by
  unfold InstrOk; infer_instance

/-- Range of a C `int` value. -/
def IntOk (v : Int) : Prop := -(2 ^ 31) ≤ v ∧ v < 2 ^ 31

instance (v : Int) : Decidable (IntOk v) := by
  unfold IntOk; infer_instance

/-- Policies reachable from `minijail_new` through successful public builder
calls.  The side conditions on the arguments are exactly the C parameter
types: `uid_t`/`gid_t` are 32-bit, the caps mask is 64-bit, resource
limits are `int`, strings are NUL-free byte sequences, and a compiled
filter's length is an unsigned short. -/
inductive Built : Minijail → Prop
  | new : Built minijail_new
  | change_uid {j j' : Minijail} {u : Nat} :
      Built j → u < 2 ^ 32 → minijail_change_uid j u = .ok j' → Built j'
  | change_gid {j j' : Minijail} {g : Nat} :
      Built j → g < 2 ^ 32 → minijail_change_gid j g = .ok j' → Built j'
  | change_user {j j' : Minijail} {user : List Nat} {pw : Option (Nat × Nat)} :
      Built j → ByteOk user →
      (∀ p, pw = some p → p.1 < 2 ^ 32 ∧ p.2 < 2 ^ 32) →
      minijail_change_user j user pw = .ok j' → Built j'
  | change_group {j j' : Minijail} {gr : Option Nat} :
      Built j → (∀ g, gr = some g → g < 2 ^ 32) →
      minijail_change_group j gr = .ok j' → Built j'
  | use_seccomp {j : Minijail} : Built j → Built (minijail_use_seccomp j)
  | no_new_privs {j : Minijail} : Built j → Built (minijail_no_new_privs j)
  | use_seccomp_filter {j : Minijail} : Built j → Built (minijail_use_seccomp_filter j)
  | log_seccomp_filter_failures {j : Minijail} :
      Built j → Built (minijail_log_seccomp_filter_failures j)
  | use_caps {j : Minijail} {m : Nat} :
      Built j → m < 2 ^ 64 → Built (minijail_use_caps j m)
  | namespace_vfs {j : Minijail} : Built j → Built (minijail_namespace_vfs j)
  | namespace_pids {j : Minijail} : Built j → Built (minijail_namespace_pids j)
  | namespace_net {j : Minijail} : Built j → Built (minijail_namespace_net j)
  | remount_readonly {j : Minijail} : Built j → Built (minijail_remount_readonly j)
  | inherit_usergroups {j : Minijail} : Built j → Built (minijail_inherit_usergroups j)
  | disable_ptrace {j : Minijail} : Built j → Built (minijail_disable_ptrace j)
  | enter_chroot {j j' : Minijail} {dir : List Nat} :
      Built j → ByteOk dir → minijail_enter_chroot j dir = .ok j' → Built j'
  | mount_tmp {j : Minijail} : Built j → Built (minijail_mount_tmp j)
  | chroot_chdir {j j' : Minijail} {dir : List Nat} :
      Built j → ByteOk dir → minijail_chroot_chdir j dir = .ok j' → Built j'
  | bind {j j' : Minijail} {src dest : List Nat} {w : Int} :
      Built j → ByteOk src → ByteOk dest → IntOk w →
      minijail_bind j src dest w = .ok j' → Built j'
  | parse_seccomp_filters {j j' : Minijail} {prog : List SockFilter} :
      Built j → prog.length < 2 ^ 16 → (∀ i ∈ prog, InstrOk i) →
      minijail_parse_seccomp_filters j true (some prog) = .ok j' → Built j'
  | meta_file {j j' : Minijail} :
      Built j → minijail_meta_file j true = .ok j' → Built j'
  | stack_limit {j : Minijail} {v : Int} :
      Built j → IntOk v → Built (minijail_stack_limit j v)
  | time_limit {j : Minijail} {v : Int} :
      Built j → IntOk v → Built (minijail_time_limit j v)
  | output_limit {j : Minijail} {v : Int} :
      Built j → IntOk v → Built (minijail_output_limit j v)
  | memory_limit {j : Minijail} {v : Int} :
      Built j → IntOk v → Built (minijail_memory_limit j v)

/-- The builder flag invariant of claim C4, as a single predicate. -/
def FlagInv (j : Minijail) : Prop :=
  (j.flags.pids = true → j.flags.vfs = true ∧ j.flags.readonly = true) ∧
  (j.bindings ≠ [] → j.flags.vfs = true)

theorem flagInv_of_built {j : Minijail} (h : Built j) : FlagInv j := by
  induction h with
  | new => exact ⟨by simp [minijail_new], by simp [minijail_new]⟩
  | change_uid hb hr he ih =>
    rename_i j j' u
    unfold minijail_change_uid at he
    split at he
    · exact absurd he (by simp)
    · cases he; exact ⟨fun hp => ih.1 hp, fun hbnd => ih.2 hbnd⟩
  | change_gid hb hr he ih =>
    rename_i j j' g
    unfold minijail_change_gid at he
    split at he
    · exact absurd he (by simp)
    · cases he; exact ⟨fun hp => ih.1 hp, fun hbnd => ih.2 hbnd⟩
  | change_user hb hs hr he ih =>
    rename_i j j' user pw
    unfold minijail_change_user at he
    match hpw : pw with
    | none => exact absurd he (by simp)
    | some (pu, pg) =>
      simp only at he
      cases hcu : minijail_change_uid j pu with
      | ok j1 =>
        rw [hcu] at he
        simp only [CRes.ok.injEq] at he
        subst he
        unfold minijail_change_uid at hcu
        split at hcu
        · exact absurd hcu (by simp)
        · simp only [CRes.ok.injEq] at hcu
          subst hcu
          exact ⟨fun hp => ih.1 hp, fun hbnd => ih.2 hbnd⟩
      | err c j1 => rw [hcu] at he; exact absurd he (by simp)
      | died => rw [hcu] at he; exact absurd he (by simp)
  | change_group hb hr he ih =>
    rename_i j j' gr
    unfold minijail_change_group minijail_change_gid at he
    match hgr : gr with
    | none => exact absurd he (by simp)
    | some g =>
      simp only at he
      split at he
      · exact absurd he (by simp)
      · cases he; exact ⟨fun hp => ih.1 hp, fun hbnd => ih.2 hbnd⟩
  | use_seccomp hb ih => exact ⟨fun hp => ih.1 hp, fun hbnd => ih.2 hbnd⟩
  | no_new_privs hb ih => exact ⟨fun hp => ih.1 hp, fun hbnd => ih.2 hbnd⟩
  | use_seccomp_filter hb ih => exact ⟨fun hp => ih.1 hp, fun hbnd => ih.2 hbnd⟩
  | log_seccomp_filter_failures hb ih => exact ⟨fun hp => ih.1 hp, fun hbnd => ih.2 hbnd⟩
  | use_caps hb hr ih => exact ⟨fun hp => ih.1 hp, fun hbnd => ih.2 hbnd⟩
  | namespace_vfs hb ih => exact ⟨fun hp => ⟨rfl, (ih.1 hp).2⟩, fun hbnd => rfl⟩
  | namespace_pids hb ih => exact ⟨fun hp => ⟨rfl, rfl⟩, fun hbnd => rfl⟩
  | namespace_net hb ih => exact ⟨fun hp => ih.1 hp, fun hbnd => ih.2 hbnd⟩
  | remount_readonly hb ih => exact ⟨fun hp => ⟨rfl, rfl⟩, fun hbnd => rfl⟩
  | inherit_usergroups hb ih => exact ⟨fun hp => ih.1 hp, fun hbnd => ih.2 hbnd⟩
  | disable_ptrace hb ih => exact ⟨fun hp => ih.1 hp, fun hbnd => ih.2 hbnd⟩
  | enter_chroot hb hs he ih =>
    rename_i j j' dir
    unfold minijail_enter_chroot at he
    split at he
    · exact absurd he (by simp)
    · cases he; exact ⟨fun hp => ih.1 hp, fun hbnd => ih.2 hbnd⟩
  | mount_tmp hb ih => exact ⟨fun hp => ih.1 hp, fun hbnd => ih.2 hbnd⟩
  | chroot_chdir hb hs he ih =>
    rename_i j j' dir
    unfold minijail_chroot_chdir at he
    split at he
    · exact absurd he (by simp)
    · split at he
      · exact absurd he (by simp)
      · split at he
        · exact absurd he (by simp)
        · cases he; exact ⟨fun hp => ih.1 hp, fun hbnd => ih.2 hbnd⟩
  | bind hb hs hd hw he ih =>
    rename_i j j' src dest w
    unfold minijail_bind at he
    split at he
    · exact absurd he (by simp)
    · cases he
      exact ⟨fun hp => ⟨rfl, (ih.1 hp).2⟩, fun hbnd => rfl⟩
  | parse_seccomp_filters hb hl hi he ih =>
    rename_i j j' prog
    unfold minijail_parse_seccomp_filters at he
    simp only [Bool.not_true, reduceIte] at he
    cases he; exact ⟨fun hp => ih.1 hp, fun hbnd => ih.2 hbnd⟩
  | meta_file hb he ih =>
    rename_i j j'
    unfold minijail_meta_file at he
    simp only [reduceIte] at he
    cases he; exact ⟨fun hp => ih.1 hp, fun hbnd => ih.2 hbnd⟩
  | stack_limit hb hr ih => exact ⟨fun hp => ih.1 hp, fun hbnd => ih.2 hbnd⟩
  | time_limit hb hr ih => exact ⟨fun hp => ih.1 hp, fun hbnd => ih.2 hbnd⟩
  | output_limit hb hr ih => exact ⟨fun hp => ih.1 hp, fun hbnd => ih.2 hbnd⟩
  | memory_limit hb hr ih => exact ⟨fun hp => ih.1 hp, fun hbnd => ih.2 hbnd⟩

/-- Claim C4: after every sequence of builder operations, `pids` implies
`vfs` and `readonly`, and a non-empty binding list implies `vfs`; since the
statement quantifies over all reachable states, no mutator ever breaks it. -/
theorem c4_builder_flag_invariant (j : Minijail) (h : Built j) :
    (j.flags.pids = true → j.flags.vfs = true ∧ j.flags.readonly = true) ∧
    (j.bindings ≠ [] → j.flags.vfs = true) :=
  flagInv_of_built h

/-- Witness for C4 at a concrete builder-reachable policy. -/
theorem c4_builder_flag_invariant_witness :
    ((minijail_namespace_pids minijail_new).flags.pids = true →
      (minijail_namespace_pids minijail_new).flags.vfs = true ∧
      (minijail_namespace_pids minijail_new).flags.readonly = true) ∧
    ((minijail_namespace_pids minijail_new).bindings ≠ [] →
      (minijail_namespace_pids minijail_new).flags.vfs = true) :=
  c4_builder_flag_invariant _ (Built.namespace_pids Built.new)

/-- Little-endian base-256 encoding of a natural in `w` bytes (the memcpy
image of a `w`-byte unsigned field). -/
def encNat : Nat → Nat → List Nat
  | _, 0 => []
  | n, w + 1 => n % 256 :: encNat (n / 256) w

/-- Decode a little-endian byte list as an unsigned number. -/
def decNat : List Nat → Nat
  | [] => 0
  | b :: bs => b % 256 + 256 * decNat bs

theorem encNat_length (n w : Nat) : (encNat n w).length = w := by
  induction w generalizing n with
  | zero => rfl
  | succ w ih => simp [encNat, ih]

theorem decNat_encNat (n w : Nat) (h : n < 256 ^ w) : decNat (encNat n w) = n := by
  induction w generalizing n with
  | zero => interval_cases n; rfl
  | succ w ih =>
    have hdiv : n / 256 < 256 ^ w := by
      rw [Nat.div_lt_iff_lt_mul (by norm_num)]
      calc n < 256 ^ (w + 1) := h
        _ = 256 ^ w * 256 := by ring
    simp only [encNat, decNat, ih _ hdiv]
    omega

/-- Two's-complement memcpy image of a 4-byte C `int`. -/
def encInt (i : Int) : List Nat := encNat ((i % (2 : Int) ^ 32).toNat) 4

/-- Decode a 4-byte little-endian field as a signed C `int`. -/
def decInt (bs : List Nat) : Int :=
  if decNat bs < 2 ^ 31 then (decNat bs : Int) else (decNat bs : Int) - 2 ^ 32

theorem encInt_length (i : Int) : (encInt i).length = 4 := encNat_length _ _

theorem decInt_encInt (i : Int) (h : IntOk i) : decInt (encInt i) = i := by
  obtain ⟨h1, h2⟩ := h
  have e1 : (2 : Int) ^ 32 = 4294967296 := by norm_num
  have e2 : (2 : Int) ^ 31 = 2147483648 := by norm_num
  have e3 : (2 : Nat) ^ 31 = 2147483648 := by norm_num
  have e4 : (256 : Nat) ^ 4 = 4294967296 := by norm_num
  rw [e2] at h1 h2
  have hb : (i % (2 : Int) ^ 32).toNat < 256 ^ 4 := by
    rw [e4, e1]; omega
  unfold decInt encInt
  rw [decNat_encNat _ _ hb, e1, e3]
  split <;> omega

/-- Byte image of one serialized `Bool` (a nullable pointer's presence, or a
flag bit): the receiver only tests it against zero. -/
def encBool (b : Bool) : List Nat := [b2n b]

def decBool (bs : List Nat) : Bool := decide (bs.headD 0 ≠ 0)

theorem decBool_encBool (b : Bool) : decBool (encBool b) = b := by
  cases b <;> rfl

/-- The fixed-size record at the head of the wire format: the memcpy image
of `struct minijail` itself (libminijail.c line 434, `sizeof(*j)` bytes).
Pointer-valued fields contribute only their null/non-null state, which is
all the receiver ever reads from them; `bindings_head`/`bindings_tail` are
unconditionally overwritten by `minijail_unmarshal` and so are not
represented. -/
structure Header where
  flags : Flags
  uid : Nat
  gid : Nat
  usergid : Nat
  userP : Bool
  caps : Nat
  initpid : Int
  filter_len : Nat
  binding_count : Nat
  chrootP : Bool
  chdirP : Bool
  filterP : Bool
  metaP : Bool
  stack_limit : Int
  time_limit : Int
  memory_limit : Int
  output_limit : Int
deriving DecidableEq

/-- The fixed record of a policy, as `minijail_marshal_helper` serializes it. -/
def hdrOf (j : Minijail) : Header :=
  { flags := j.flags, uid := j.uid, gid := j.gid, usergid := j.usergid,
    userP := j.user.isSome, caps := j.caps, initpid := j.initpid,
    filter_len := j.filter_len, binding_count := j.binding_count,
    chrootP := j.chrootdir.isSome, chdirP := j.chdir.isSome,
    filterP := j.filter_prog.isSome, metaP := j.meta_file,
    stack_limit := j.stack_limit, time_limit := j.time_limit,
    memory_limit := j.memory_limit, output_limit := j.output_limit }

/-- Byte image of the flag block: one byte per bit-field. -/
def encodeFlags (f : Flags) : List Nat :=
  [b2n f.uid, b2n f.gid, b2n f.caps, b2n f.vfs, b2n f.pids, b2n f.net,
   b2n f.seccomp, b2n f.readonly, b2n f.usergroups, b2n f.ptrace,
   b2n f.no_new_privs, b2n f.seccomp_filter, b2n f.log_seccomp_filter,
   b2n f.chroot, b2n f.mount_tmp, b2n f.chdir, b2n f.stack_limit,
   b2n f.time_limit, b2n f.output_limit, b2n f.memory_limit, b2n f.meta_file]

def decodeFlags (l : List Nat) : Flags :=
  { uid := decide (l.getD 0 0 ≠ 0), gid := decide (l.getD 1 0 ≠ 0),
    caps := decide (l.getD 2 0 ≠ 0), vfs := decide (l.getD 3 0 ≠ 0),
    pids := decide (l.getD 4 0 ≠ 0), net := decide (l.getD 5 0 ≠ 0),
    seccomp := decide (l.getD 6 0 ≠ 0), readonly := decide (l.getD 7 0 ≠ 0),
    usergroups := decide (l.getD 8 0 ≠ 0), ptrace := decide (l.getD 9 0 ≠ 0),
    no_new_privs := decide (l.getD 10 0 ≠ 0),
    seccomp_filter := decide (l.getD 11 0 ≠ 0),
    log_seccomp_filter := decide (l.getD 12 0 ≠ 0),
    chroot := decide (l.getD 13 0 ≠ 0), mount_tmp := decide (l.getD 14 0 ≠ 0),
    chdir := decide (l.getD 15 0 ≠ 0), stack_limit := decide (l.getD 16 0 ≠ 0),
    time_limit := decide (l.getD 17 0 ≠ 0), output_limit := decide (l.getD 18 0 ≠ 0),
    memory_limit := decide (l.getD 19 0 ≠ 0), meta_file := decide (l.getD 20 0 ≠ 0) }

theorem encodeFlags_length (f : Flags) : (encodeFlags f).length = 21 := rfl

theorem b2n_ne_zero (b : Bool) : decide (b2n b ≠ 0) = b := by cases b <;> rfl

theorem decodeFlags_encodeFlags (f : Flags) : decodeFlags (encodeFlags f) = f := by
  obtain ⟨f1, f2, f3, f4, f5, f6, f7, f8, f9, f10, f11, f12, f13, f14, f15,
    f16, f17, f18, f19, f20, f21⟩ := f
  simp only [decodeFlags, encodeFlags, List.getD_cons_zero, List.getD_cons_succ,
    b2n_ne_zero]

/-- Byte image of the whole fixed record. -/
def encodeHeader (h : Header) : List Nat :=
  encodeFlags h.flags ++ encNat h.uid 4 ++ encNat h.gid 4 ++ encNat h.usergid 4 ++
  encBool h.userP ++ encNat h.caps 8 ++ encInt h.initpid ++ encNat h.filter_len 4 ++
  encNat h.binding_count 4 ++ encBool h.chrootP ++ encBool h.chdirP ++
  encBool h.filterP ++ encBool h.metaP ++ encInt h.stack_limit ++
  encInt h.time_limit ++ encInt h.memory_limit ++ encInt h.output_limit

/-- The `sizeof(struct minijail)` of the model. -/
def sizeofMinijail : Nat := 74

theorem encodeHeader_length (h : Header) : (encodeHeader h).length = sizeofMinijail := by
  simp [encodeHeader, encodeFlags_length, encNat_length, encInt_length, encBool,
    sizeofMinijail]

/-- Sequential reader for the fixed record (the receiving memcpy). -/
def rdBytes (w : Nat) (l : List Nat) : List Nat × List Nat := (l.take w, l.drop w)

def decodeHeader (l : List Nat) : Header :=
  let (fl, l) := rdBytes 21 l
  let (uidB, l) := rdBytes 4 l
  let (gidB, l) := rdBytes 4 l
  let (ugidB, l) := rdBytes 4 l
  let (userB, l) := rdBytes 1 l
  let (capsB, l) := rdBytes 8 l
  let (pidB, l) := rdBytes 4 l
  let (flenB, l) := rdBytes 4 l
  let (bcB, l) := rdBytes 4 l
  let (chrB, l) := rdBytes 1 l
  let (chdB, l) := rdBytes 1 l
  let (fpB, l) := rdBytes 1 l
  let (mfB, l) := rdBytes 1 l
  let (slB, l) := rdBytes 4 l
  let (tlB, l) := rdBytes 4 l
  let (mlB, l) := rdBytes 4 l
  let (olB, _) := rdBytes 4 l
  { flags := decodeFlags fl, uid := decNat uidB, gid := decNat gidB,
    usergid := decNat ugidB, userP := decBool userB, caps := decNat capsB,
    initpid := decInt pidB, filter_len := decNat flenB,
    binding_count := decNat bcB, chrootP := decBool chrB,
    chdirP := decBool chdB, filterP := decBool fpB, metaP := decBool mfB,
    stack_limit := decInt slB, time_limit := decInt tlB,
    memory_limit := decInt mlB, output_limit := decInt olB }

/-- Ranges under which the fixed record survives the memcpy round trip:
exactly the C field types (32-bit ids, 64-bit caps mask, int limits,
unsigned-short filter length, int binding count). -/
def HeaderOk (h : Header) : Prop :=
  h.uid < 2 ^ 32 ∧ h.gid < 2 ^ 32 ∧ h.usergid < 2 ^ 32 ∧ h.caps < 2 ^ 64 ∧
  IntOk h.initpid ∧ h.filter_len < 2 ^ 16 ∧ h.binding_count < 2 ^ 31 ∧
  IntOk h.stack_limit ∧ IntOk h.time_limit ∧ IntOk h.memory_limit ∧
  IntOk h.output_limit

theorem take_append_of_length {l r : List Nat} {w : Nat} (h : l.length = w) :
    (l ++ r).take w = l := by
  subst h; simp

theorem drop_append_of_length {l r : List Nat} {w : Nat} (h : l.length = w) :
    (l ++ r).drop w = r := by
  subst h; simp

theorem rdBytes_append {l r : List Nat} {w : Nat} (h : l.length = w) :
    rdBytes w (l ++ r) = (l, r) := by
  simp [rdBytes, take_append_of_length h, drop_append_of_length h]

theorem decodeHeader_encodeHeader (h : Header) (hok : HeaderOk h) (r : List Nat) :
    decodeHeader (encodeHeader h ++ r) = h := by
  obtain ⟨h1, h2, h3, h4, h5, h6, h7, h8, h9, h10, h11⟩ := hok
  unfold encodeHeader decodeHeader
  simp only [List.append_assoc]
  rw [rdBytes_append (encodeFlags_length _)]
  rw [rdBytes_append (encNat_length _ _)]
  rw [rdBytes_append (encNat_length _ _)]
  rw [rdBytes_append (encNat_length _ _)]
  rw [rdBytes_append (by simp [encBool])]
  rw [rdBytes_append (encNat_length _ _)]
  rw [rdBytes_append (encInt_length _)]
  rw [rdBytes_append (encNat_length _ _)]
  rw [rdBytes_append (encNat_length _ _)]
  rw [rdBytes_append (by simp [encBool])]
  rw [rdBytes_append (by simp [encBool])]
  rw [rdBytes_append (by simp [encBool])]
  rw [rdBytes_append (by simp [encBool])]
  rw [rdBytes_append (encInt_length _)]
  rw [rdBytes_append (encInt_length _)]
  rw [rdBytes_append (encInt_length _)]
  rw [rdBytes_append (encInt_length _)]
  have e32 : (256 : Nat) ^ 4 = 2 ^ 32 := by norm_num
  have e64 : (256 : Nat) ^ 8 = 2 ^ 64 := by norm_num
  simp only [decodeFlags_encodeFlags, decBool_encBool,
    decNat_encNat h.uid 4 (by omega), decNat_encNat h.gid 4 (by omega),
    decNat_encNat h.usergid 4 (by omega), decNat_encNat h.caps 8 (by omega),
    decNat_encNat h.filter_len 4 (by omega),
    decNat_encNat h.binding_count 4 (by omega),
    decInt_encInt _ h5, decInt_encInt _ h8, decInt_encInt _ h9,
    decInt_encInt _ h10, decInt_encInt _ h11]

/-- `struct marshal_state` (lines 401-405): `buf` is the byte run written so
far (the C advances a pointer into the caller's buffer). -/
structure MarshalState where
  available : Nat
  total : Nat
  buf : List Nat
deriving DecidableEq

/-- `marshal_state_init` (lines 407-413). -/
def marshal_state_init (available : Nat) : MarshalState :=
  { available := available, total := 0, buf := [] }

/-- `marshal_append` (lines 415-428): writes up to `available` bytes and
always accounts the full length in `total`. -/
def marshal_append (state : MarshalState) (src : List Nat) : MarshalState :=
  let copy_len := min state.available src.length
  { available := state.available - copy_len,
    total := state.total + src.length,
    buf := state.buf ++ src.take copy_len }

/-- Wire image of a NUL-terminated string (`strlen + 1` bytes). -/
def strBytes (s : List Nat) : List Nat := s ++ [0]

/-- Memcpy image of one `struct sock_filter` (8 bytes). -/
def encInstr (i : SockFilter) : List Nat :=
  encNat i.code 2 ++ encNat i.jt 1 ++ encNat i.jf 1 ++ encNat i.k 4

def decInstr (bs : List Nat) : SockFilter :=
  { code := decNat (bs.take 2), jt := decNat ((bs.drop 2).take 1),
    jf := decNat ((bs.drop 3).take 1), k := decNat ((bs.drop 4).take 4) }

theorem encInstr_length (i : SockFilter) : (encInstr i).length = 8 := by
  simp [encInstr, encNat_length]

theorem decInstr_encInstr (i : SockFilter) (h : InstrOk i) :
    ∀ r, decInstr (encInstr i ++ r) = i := by
  intro r
  obtain ⟨h1, h2, h3, h4⟩ := h
  obtain ⟨c, jt, jf, k⟩ := i
  simp only [InstrOk] at h1 h2 h3 h4
  unfold decInstr encInstr
  simp only [List.append_assoc]
  rw [take_append_of_length (encNat_length _ _), drop_append_of_length (encNat_length _ _),
    take_append_of_length (encNat_length _ _)]
  rw [show (encNat c 2 ++ (encNat jt 1 ++ (encNat jf 1 ++ (encNat k 4 ++ r)))).drop 3
      = encNat jf 1 ++ (encNat k 4 ++ r) by
    rw [show 3 = 2 + 1 by rfl, ← List.drop_drop]
    rw [drop_append_of_length (encNat_length _ _), drop_append_of_length (encNat_length _ _)]]
  rw [take_append_of_length (encNat_length _ _)]
  rw [show (encNat c 2 ++ (encNat jt 1 ++ (encNat jf 1 ++ (encNat k 4 ++ r)))).drop 4
      = encNat k 4 ++ r by
    rw [show 4 = 2 + 1 + 1 by rfl, ← List.drop_drop, ← List.drop_drop]
    rw [drop_append_of_length (encNat_length _ _), drop_append_of_length (encNat_length _ _),
      drop_append_of_length (encNat_length _ _)]]
  rw [take_append_of_length (encNat_length _ _)]
  have e16 : (256 : Nat) ^ 2 = 2 ^ 16 := by norm_num
  have e8 : (256 : Nat) ^ 1 = 2 ^ 8 := by norm_num
  have e32 : (256 : Nat) ^ 4 = 2 ^ 32 := by norm_num
  simp [decNat_encNat c 2 (by omega), decNat_encNat jt 1 (by omega),
    decNat_encNat jf 1 (by omega), decNat_encNat k 4 (by omega)]

/-- Wire image of the BPF program body (`fp->len * sizeof(struct sock_filter)`
bytes copied from `fp->filter`, line 443-444). -/
def encFilter (p : List SockFilter) : List Nat := (p.map encInstr).flatten

theorem encFilter_length (p : List SockFilter) : (encFilter p).length = p.length * 8 := by
  induction p with
  | nil => rfl
  | cons i p ih => simp [encFilter, encInstr_length] at *; omega

/-- Reading the received raw program bytes back as instructions (the child's
`memcpy` into a fresh `sock_filter` array). -/
def decFilter (bs : List Nat) : List SockFilter :=
  if h : bs = [] then [] else decInstr (bs.take 8) :: decFilter (bs.drop 8)
termination_by bs.length
decreasing_by
  have : 0 < bs.length := List.length_pos.mpr h
  simp [List.length_drop]; omega

theorem decInstr_encInstr_nil (i : SockFilter) (h : InstrOk i) :
    decInstr (encInstr i) = i := by
  have := decInstr_encInstr i h []
  simpa using this

theorem decFilter_encFilter (p : List SockFilter) (h : ∀ i ∈ p, InstrOk i) :
    decFilter (encFilter p) = p := by
  induction p with
  | nil =>
    have he : encFilter ([] : List SockFilter) = [] := rfl
    rw [he, decFilter]
    simp
  | cons i p ih =>
    have hne : encFilter (i :: p) ≠ [] := by
      intro hc
      have hlen := encFilter_length (i :: p)
      rw [hc] at hlen
      simp at hlen
    rw [decFilter, dif_neg hne]
    have hsplit : encFilter (i :: p) = encInstr i ++ encFilter p := by
      simp [encFilter]
    rw [hsplit, take_append_of_length (encInstr_length i),
      drop_append_of_length (encInstr_length i),
      decInstr_encInstr_nil i (h i (by simp)),
      ih (fun x hx => h x (by simp [hx]))]

/-- The exact sequence of `marshal_append` calls made by
`minijail_marshal_helper` (lines 430-452): the raw struct, then the three
optional strings, the filter body when the flag is set and a program is
attached, then each binding's src, dest and writeable flag in list order. -/
def marshalAppends (j : Minijail) : List (List Nat) :=
  [encodeHeader (hdrOf j)] ++
  (match j.user with | some u => [strBytes u] | none => []) ++
  (match j.chrootdir with | some d => [strBytes d] | none => []) ++
  (match j.chdir with | some d => [strBytes d] | none => []) ++
  (if j.flags.seccomp_filter && j.filter_prog.isSome
    then [encFilter (j.filter_prog.getD [])] else []) ++
  (j.bindings.map fun b => [strBytes b.src, strBytes b.dest, encInt b.writeable]).flatten

def minijail_marshal_helper (state : MarshalState) (j : Minijail) : MarshalState :=
  (marshalAppends j).foldl marshal_append state

/-- `minijail_size` (lines 454-460). -/
def minijail_size (j : Minijail) : Nat :=
  (minijail_marshal_helper (marshal_state_init 0) j).total

/-- `minijail_marshal` (lines 462-468); the C function returns the int
`(state.total > available)`, rendered as the `Bool` in the first component
(`false` = 0 = success), alongside the bytes it wrote. -/
def minijail_marshal (j : Minijail) (available : Nat) : Bool × List Nat :=
  ((minijail_marshal_helper (marshal_state_init available) j).total > available,
   (minijail_marshal_helper (marshal_state_init available) j).buf)

/-- The untruncated serialization of a policy. -/
def serialize (j : Minijail) : List Nat := (marshalAppends j).flatten

theorem foldl_marshal_total (chunks : List (List Nat)) (st : MarshalState) :
    (chunks.foldl marshal_append st).total = st.total + chunks.flatten.length := by
  induction chunks generalizing st with
  | nil => simp
  | cons c cs ih => simp [ih, marshal_append]; omega

theorem take_min_self (l : List Nat) (a : Nat) : l.take (min a l.length) = l.take a := by
  rcases le_total a l.length with h | h
  · rw [min_eq_left h]
  · rw [min_eq_right h, List.take_of_length_le h, List.take_of_length_le (le_refl _) ]

theorem foldl_marshal_buf (chunks : List (List Nat)) (st : MarshalState) :
    (chunks.foldl marshal_append st).buf = st.buf ++ chunks.flatten.take st.available := by
  induction chunks generalizing st with
  | nil => simp
  | cons c cs ih =>
    simp only [List.foldl_cons, ih, marshal_append, List.flatten_cons,
      List.take_append_eq_append_take, List.append_assoc]
    rw [take_min_self]
    have hm : st.available - st.available ⊓ c.length = st.available - c.length := by
      omega
    rw [hm]

theorem minijail_size_eq (j : Minijail) : minijail_size j = (serialize j).length := by
  unfold minijail_size minijail_marshal_helper serialize marshal_state_init
  rw [foldl_marshal_total]
  simp

theorem minijail_marshal_eq (j : Minijail) (cap : Nat) :
    minijail_marshal j cap = (decide (minijail_size j > cap), (serialize j).take cap) := by
  simp only [minijail_marshal, minijail_size, minijail_marshal_helper, serialize,
    marshal_state_init, foldl_marshal_total, foldl_marshal_buf]
  simp

theorem serialize_length_ge (j : Minijail) : sizeofMinijail ≤ (serialize j).length := by
  unfold serialize marshalAppends
  simp only [List.flatten_append, List.flatten_cons, List.flatten_nil, List.append_assoc,
    List.length_append, List.nil_append]
  have := encodeHeader_length (hdrOf j)
  omega

/-- Claim C5: `minijail_marshal` reports success exactly when the buffer can
hold `minijail_size` bytes; it always writes the first `cap` bytes of the
full serialization while accounting the full total, so an exact-size buffer
reports no truncation and a one-byte-short buffer reports truncation. -/
theorem c5_marshal_size_agreement (j : Minijail) (cap : Nat) :
    ((minijail_marshal j cap).1 = false ↔ minijail_size j ≤ cap) ∧
    (minijail_marshal j cap).2 = (serialize j).take cap ∧
    (minijail_marshal j (minijail_size j)).1 = false ∧
    (minijail_marshal j (minijail_size j - 1)).1 = true := by
  have hge : 1 ≤ minijail_size j := by
    rw [minijail_size_eq]
    have := serialize_length_ge j
    unfold sizeofMinijail at this
    omega
  refine ⟨?_, ?_, ?_, ?_⟩
  · rw [minijail_marshal_eq]
    simp only [decide_eq_false_iff_not, not_lt]
  · rw [minijail_marshal_eq]
  · rw [minijail_marshal_eq]
    simp
  · rw [minijail_marshal_eq]
    simp only [decide_eq_true_eq]
    omega

/-- `consumebytes` (lines 477-485): take `length` bytes off the front of the
buffer, or fail if fewer remain. -/
def consumebytes (length : Nat) (buf : List Nat) : Option (List Nat × List Nat) :=
  if length > buf.length then none
  else some (buf.take length, buf.drop length)

/-- `consumestr` (lines 493-500): `strnlen` scans for the NUL; if none is in
the remaining buffer the stream is malformed, otherwise the string and its
terminator are consumed. -/
def consumestr (buf : List Nat) : Option (List Nat × List Nat) :=
  if (buf.takeWhile fun b => b ≠ 0).length = buf.length then none
  else some (buf.take (buf.takeWhile fun b => b ≠ 0).length,
             buf.drop ((buf.takeWhile fun b => b ≠ 0).length + 1))

/-- `USHRT_MAX` from limits.h. -/
def USHRT_MAX : Nat := 65535

/-- The policy state right after `minijail_unmarshal`'s initial memcpy and
the nulling of the stale `bindings_head`/`bindings_tail`/`filter_prog`
pointers (lines 510-517): the stale string pointers survive only as
non-null markers that gate the string sections. -/
def jailOfHeader (h : Header) : Minijail :=
  { flags := h.flags, uid := h.uid, gid := h.gid, usergid := h.usergid,
    user := if h.userP then some [] else none,
    caps := h.caps, initpid := h.initpid, filter_len := h.filter_len,
    binding_count := h.binding_count,
    chrootdir := if h.chrootP then some [] else none,
    chdir := if h.chdirP then some [] else none,
    filter_prog := none, bindings := [],
    stack_limit := h.stack_limit, time_limit := h.time_limit,
    memory_limit := h.memory_limit, output_limit := h.output_limit,
    meta_file := h.metaP }

/-- The binding loop of `minijail_unmarshal` (lines 567-583): `count` times,
read src string, dest string and the 4-byte writeable int, and feed them
back through `minijail_bind`; any parse or bind failure aborts. -/
def unmarshalBindings : Nat → Minijail → List Nat → Option Minijail
  | 0, j, _ => some j
  | count + 1, j, buf =>
    match consumestr buf with
    | none => none
    | some (src, buf1) =>
      match consumestr buf1 with
      | none => none
      | some (dest, buf2) =>
        match consumebytes 4 buf2 with
        | none => none
        | some (wb, buf3) =>
          match minijail_bind j src dest (decInt wb) with
          | .ok j1 => unmarshalBindings count j1 buf3
          | _ => none

/-- One optional-string section of `minijail_unmarshal` (lines 519-544):
when the stale pointer is non-null, a string is consumed and duplicated,
otherwise the (null) field is left as is. -/
def readStr (present : Bool) (old : Option (List Nat)) (buf : List Nat) :
    Option (Option (List Nat) × List Nat) :=
  if present then
    match consumestr buf with
    | none => none
    | some (s, b) => some (some s, b)
  else some (old, buf)

/-- The filter section of `minijail_unmarshal` (lines 546-561): consumed only
when the `seccomp_filter` flag is set and `filter_len > 0`; a length above
`USHRT_MAX` is rejected (the companion `SIZE_MAX / sizeof` test can never
fire first on a platform where `USHRT_MAX * 8` fits in `size_t`). -/
def readFilter (j3 : Minijail) (buf : List Nat) : Option (Minijail × List Nat) :=
  if j3.flags.seccomp_filter && decide (0 < j3.filter_len) then
    if j3.filter_len > USHRT_MAX then none
    else
      match consumebytes (j3.filter_len * 8) buf with
      | none => none
      | some (bs, b) => some ({ j3 with filter_prog := some (decFilter bs) }, b)
  else some (j3, buf)

/-- `minijail_unmarshal` (lines 502-607).  The failure return `-EINVAL` is
`none`.  The stale `meta_file` handle is nulled (lines 563-565), and
leftover bytes after the last binding are ignored, as in the C. -/
def minijail_unmarshal (serialized : List Nat) : Option Minijail :=
  if serialized.length < sizeofMinijail then none
  else
    let j0 := jailOfHeader (decodeHeader (serialized.take sizeofMinijail))
    match readStr j0.user.isSome j0.user (serialized.drop sizeofMinijail) with
    | none => none
    | some (u, buf1) =>
      let j1 := { j0 with user := u }
      match readStr j1.chrootdir.isSome j1.chrootdir buf1 with
      | none => none
      | some (c, buf2) =>
        let j2 := { j1 with chrootdir := c }
        match readStr j2.chdir.isSome j2.chdir buf2 with
        | none => none
        | some (d, buf3) =>
          let j3 := { j2 with chdir := d }
          match readFilter j3 buf3 with
          | none => none
          | some (j4, buf4) =>
            let j5 := { j4 with meta_file := false }
            unmarshalBindings j5.binding_count { j5 with binding_count := 0 } buf4

/-- Bytes contributed to the stream by an optional string field. -/
def optStr : Option (List Nat) → List Nat
  | some s => strBytes s
  | none => []

/-- Bytes contributed by one binding: src, dest, writeable. -/
def bindingBytes (b : Binding) : List Nat :=
  strBytes b.src ++ strBytes b.dest ++ encInt b.writeable

def bindingsBytes (bs : List Binding) : List Nat := (bs.map bindingBytes).flatten

/-- Bytes contributed by the filter section. -/
def filterBytes (j : Minijail) : List Nat :=
  if j.flags.seccomp_filter && j.filter_prog.isSome
    then encFilter (j.filter_prog.getD []) else []

theorem serialize_decomp (j : Minijail) :
    serialize j = encodeHeader (hdrOf j) ++
      (optStr j.user ++ (optStr j.chrootdir ++ (optStr j.chdir ++
        (filterBytes j ++ bindingsBytes j.bindings)))) := by
  have hflat : ∀ bs : List Binding,
      ((bs.map fun b => [strBytes b.src, strBytes b.dest, encInt b.writeable]).flatten).flatten
        = bindingsBytes bs := by
    intro bs
    induction bs with
    | nil => rfl
    | cons b bs ih =>
      simp only [List.map_cons, List.flatten_cons, bindingsBytes, bindingBytes] at *
      simp [ih, List.append_assoc]
  unfold serialize marshalAppends
  rw [List.flatten_append, List.flatten_append, List.flatten_append,
    List.flatten_append, List.flatten_append]
  rw [hflat]
  have hu : (match j.user with
      | some u => [strBytes u] | none => ([] : List (List Nat))).flatten = optStr j.user := by
    cases j.user <;> simp [optStr]
  have hc : (match j.chrootdir with
      | some d => [strBytes d] | none => ([] : List (List Nat))).flatten = optStr j.chrootdir := by
    cases j.chrootdir <;> simp [optStr]
  have hd : (match j.chdir with
      | some d => [strBytes d] | none => ([] : List (List Nat))).flatten = optStr j.chdir := by
    cases j.chdir <;> simp [optStr]
  have hf : (if j.flags.seccomp_filter && j.filter_prog.isSome
      then [encFilter (j.filter_prog.getD [])] else ([] : List (List Nat))).flatten
        = filterBytes j := by
    unfold filterBytes
    split <;> simp
  rw [hu, hc, hd, hf]
  simp [List.append_assoc]

theorem marshal_exact (j : Minijail) :
    (minijail_marshal j (minijail_size j)).2 = serialize j := by
  rw [minijail_marshal_eq, minijail_size_eq]
  simp [List.take_of_length_le]

theorem takeWhile_ne_zero (s r : List Nat) (h : ∀ b ∈ s, b ≠ 0) :
    ((s ++ 0 :: r).takeWhile fun b => b ≠ 0) = s := by
  induction s with
  | nil => simp
  | cons a s ih =>
    have ha : a ≠ 0 := h a (by simp)
    rw [List.cons_append, List.takeWhile_cons_of_pos (by simpa using ha),
      ih fun b hb => h b (by simp [hb])]

theorem consumestr_strBytes (s r : List Nat) (h : ByteOk s) :
    consumestr (strBytes s ++ r) = some (s, r) := by
  have hne : ∀ b ∈ s, b ≠ 0 := fun b hb => Nat.pos_iff_ne_zero.mp (h b hb).1
  have heq : strBytes s ++ r = s ++ 0 :: r := by simp [strBytes]
  unfold consumestr
  rw [heq, takeWhile_ne_zero s r hne]
  have hlen : s.length ≠ (s ++ 0 :: r).length := by simp
  rw [if_neg hlen]
  have h1 : (s ++ 0 :: r).take s.length = s := take_append_of_length rfl
  have h2 : (s ++ 0 :: r).drop (s.length + 1) = r := by
    have : s ++ 0 :: r = (s ++ [0]) ++ r := by simp
    rw [this]
    exact drop_append_of_length (by simp)
  rw [h1, h2]

theorem consumebytes_append (l r : List Nat) (n : Nat) (h : l.length = n) :
    consumebytes n (l ++ r) = some (l, r) := by
  unfold consumebytes
  rw [if_neg (by simp [h]), take_append_of_length h, drop_append_of_length h]

/-- The state `minijail_bind` leaves behind on success. -/
def bindOk (j : Minijail) (b : Binding) : Minijail :=
  { minijail_namespace_vfs j with
    bindings := j.bindings ++ [b], binding_count := j.binding_count + 1 }

theorem minijail_bind_ok (j : Minijail) (b : Binding) (h : b.dest.headD 0 = 47) :
    minijail_bind j b.src b.dest b.writeable = .ok (bindOk j b) := by
  unfold minijail_bind bindOk
  rw [if_neg (by simp only [ne_eq, not_not]; exact h)]

theorem unmarshalBindings_spec (bs : List Binding) (jj : Minijail) (r : List Nat)
    (hok : ∀ b ∈ bs, ByteOk b.src ∧ ByteOk b.dest ∧ IntOk b.writeable ∧
      b.dest.headD 0 = 47) :
    unmarshalBindings bs.length jj (bindingsBytes bs ++ r) =
      some (bs.foldl bindOk jj) := by
  induction bs generalizing jj with
  | nil => rfl
  | cons b bs ih =>
    obtain ⟨hsrc, hdest, hw, habs⟩ := hok b (by simp)
    have hbytes : bindingsBytes (b :: bs) ++ r =
        strBytes b.src ++ (strBytes b.dest ++ (encInt b.writeable ++
          (bindingsBytes bs ++ r))) := by
      simp [bindingsBytes, bindingBytes, List.append_assoc]
    show unmarshalBindings (bs.length + 1) jj (bindingsBytes (b :: bs) ++ r) =
      some ((b :: bs).foldl bindOk jj)
    unfold unmarshalBindings
    rw [hbytes, consumestr_strBytes _ _ hsrc]
    simp only
    rw [consumestr_strBytes _ _ hdest]
    simp only
    rw [consumebytes_append _ _ _ (encInt_length _)]
    simp only
    rw [decInt_encInt _ hw, minijail_bind_ok jj b habs]
    exact ih (bindOk jj b) fun x hx => hok x (by simp [hx])

theorem foldl_bindOk (bs : List Binding) (jj : Minijail) :
    bs.foldl bindOk jj =
      { jj with flags := { jj.flags with vfs := jj.flags.vfs || !bs.isEmpty },
                bindings := jj.bindings ++ bs,
                binding_count := jj.binding_count + bs.length } := by
  induction bs generalizing jj with
  | nil => simp
  | cons b bs ih =>
    rw [List.foldl_cons, ih]
    simp [bindOk, minijail_namespace_vfs]
    omega

/-- Well-formedness of a builder-produced policy: every numeric field fits
its C type, strings are NUL-free bytes, the stored filter length matches
the attached program, and the binding counter matches the list. -/
def WF (j : Minijail) : Prop :=
  j.uid < 2 ^ 32 ∧ j.gid < 2 ^ 32 ∧ j.usergid < 2 ^ 32 ∧ j.caps < 2 ^ 64 ∧
  IntOk j.initpid ∧ j.filter_len < 2 ^ 16 ∧
  (j.filter_prog = none → j.filter_len = 0) ∧
  (∀ p, j.filter_prog = some p → j.filter_len = p.length) ∧
  (∀ s, j.user = some s → ByteOk s) ∧
  (∀ s, j.chrootdir = some s → ByteOk s) ∧
  (∀ s, j.chdir = some s → ByteOk s) ∧
  (∀ p, j.filter_prog = some p → ∀ i ∈ p, InstrOk i) ∧
  (∀ b ∈ j.bindings, ByteOk b.src ∧ ByteOk b.dest ∧ IntOk b.writeable ∧
    b.dest.headD 0 = 47) ∧
  j.binding_count = j.bindings.length ∧
  IntOk j.stack_limit ∧ IntOk j.time_limit ∧ IntOk j.memory_limit ∧
  IntOk j.output_limit

theorem wf_of_built {j : Minijail} (h : Built j) : WF j := by
  induction h with
  | new =>
    refine ⟨?_, ?_, ?_, ?_, ?_, ?_, ?_, ?_, ?_, ?_, ?_, ?_, ?_, ?_, ?_, ?_, ?_, ?_⟩ <;>
      simp [minijail_new, IntOk]
  | change_uid hb hr he ih =>
    unfold minijail_change_uid at he
    split at he
    · exact absurd he (by simp)
    · obtain ⟨w1, w⟩ := ih
      cases he
      exact ⟨hr, w⟩
  | change_gid hb hr he ih =>
    unfold minijail_change_gid at he
    split at he
    · exact absurd he (by simp)
    · obtain ⟨w1, w2, w⟩ := ih
      cases he
      exact ⟨w1, hr, w⟩
  | change_user hb hs hr he ih =>
    rename_i j j' user pw
    unfold minijail_change_user at he
    match hpw : pw with
    | none => exact absurd he (by simp)
    | some (pu, pg) =>
      simp only at he
      cases hcu : minijail_change_uid j pu with
      | ok j1 =>
        rw [hcu] at he
        simp only [CRes.ok.injEq] at he
        subst he
        unfold minijail_change_uid at hcu
        split at hcu
        · exact absurd hcu (by simp)
        · simp only [CRes.ok.injEq] at hcu
          subst hcu
          obtain ⟨w1, w2, w3, w4, w5, w6, w7, w8, w9, w⟩ := ih
          obtain ⟨hru, hrg⟩ := hr (pu, pg) rfl
          refine ⟨hru, w2, hrg, w4, w5, w6, w7, w8, ?_, w⟩
          intro s hss
          simp only [Option.some.injEq] at hss
          subst hss
          exact hs
      | err c j1 => rw [hcu] at he; exact absurd he (by simp)
      | died => rw [hcu] at he; exact absurd he (by simp)
  | change_group hb hr he ih =>
    rename_i j j' gr
    unfold minijail_change_group minijail_change_gid at he
    match hgr : gr with
    | none => exact absurd he (by simp)
    | some g =>
      simp only at he
      split at he
      · exact absurd he (by simp)
      · obtain ⟨w1, w2, w⟩ := ih
        cases he
        exact ⟨w1, hr g rfl, w⟩
  | use_seccomp hb ih => exact ih
  | no_new_privs hb ih => exact ih
  | use_seccomp_filter hb ih => exact ih
  | log_seccomp_filter_failures hb ih => exact ih
  | use_caps hb hr ih =>
    obtain ⟨w1, w2, w3, w4, w⟩ := ih
    exact ⟨w1, w2, w3, hr, w⟩
  | namespace_vfs hb ih => exact ih
  | namespace_pids hb ih => exact ih
  | namespace_net hb ih => exact ih
  | remount_readonly hb ih => exact ih
  | inherit_usergroups hb ih => exact ih
  | disable_ptrace hb ih => exact ih
  | enter_chroot hb hs he ih =>
    unfold minijail_enter_chroot at he
    split at he
    · exact absurd he (by simp)
    · obtain ⟨w1, w2, w3, w4, w5, w6, w7, w8, w9, w10, w⟩ := ih
      cases he
      refine ⟨w1, w2, w3, w4, w5, w6, w7, w8, w9, ?_, w⟩
      intro s hss
      simp only [Option.some.injEq] at hss
      subst hss
      exact hs
  | mount_tmp hb ih => exact ih
  | chroot_chdir hb hs he ih =>
    unfold minijail_chroot_chdir at he
    split at he
    · exact absurd he (by simp)
    · split at he
      · exact absurd he (by simp)
      · split at he
        · exact absurd he (by simp)
        · obtain ⟨w1, w2, w3, w4, w5, w6, w7, w8, w9, w10, w11, w⟩ := ih
          cases he
          refine ⟨w1, w2, w3, w4, w5, w6, w7, w8, w9, w10, ?_, w⟩
          intro s hss
          simp only [Option.some.injEq] at hss
          subst hss
          exact hs
  | bind hb hs hd hw he ih =>
    rename_i j j' src dest w
    unfold minijail_bind at he
    split at he
    · exact absurd he (by simp)
    · rename_i hdest
      obtain ⟨w1, w2, w3, w4, w5, w6, w7, w8, w9, w10, w11, w12, w13, w14, w⟩ := ih
      cases he
      refine ⟨w1, w2, w3, w4, w5, w6, w7, w8, w9, w10, w11, w12, ?_, ?_, w⟩
      · intro b hbmem
        simp only [minijail_namespace_vfs, List.mem_append, List.mem_singleton] at hbmem
        rcases hbmem with hold | hnew
        · exact w13 b hold
        · subst hnew
          refine ⟨hs, hd, hw, ?_⟩
          simpa using hdest
      · simp only [minijail_namespace_vfs, List.length_append, List.length_singleton]
        omega
  | parse_seccomp_filters hb hl hi he ih =>
    unfold minijail_parse_seccomp_filters at he
    simp only [Bool.not_true, reduceIte] at he
    obtain ⟨w1, w2, w3, w4, w5, w6, w7, w8, w9, w10, w11, w12, w⟩ := ih
    cases he
    refine ⟨w1, w2, w3, w4, w5, hl, by simp, ?_, w9, w10, w11, ?_, w⟩
    · intro p hp
      simp only [Option.some.injEq] at hp
      subst hp
      rfl
    · intro p hp
      simp only [Option.some.injEq] at hp
      subst hp
      exact hi
  | meta_file hb he ih =>
    unfold minijail_meta_file at he
    simp only [reduceIte] at he
    cases he
    exact ih
  | stack_limit hb hr ih =>
    obtain ⟨w1, w2, w3, w4, w5, w6, w7, w8, w9, w10, w11, w12, w13, w14, w15, w⟩ := ih
    exact ⟨w1, w2, w3, w4, w5, w6, w7, w8, w9, w10, w11, w12, w13, w14, hr, w⟩
  | time_limit hb hr ih =>
    obtain ⟨w1, w2, w3, w4, w5, w6, w7, w8, w9, w10, w11, w12, w13, w14, w15, w16, w⟩ := ih
    exact ⟨w1, w2, w3, w4, w5, w6, w7, w8, w9, w10, w11, w12, w13, w14, w15, hr, w⟩
  | output_limit hb hr ih =>
    obtain ⟨w1, w2, w3, w4, w5, w6, w7, w8, w9, w10, w11, w12, w13, w14, w15, w16, w17, w18⟩ := ih
    exact ⟨w1, w2, w3, w4, w5, w6, w7, w8, w9, w10, w11, w12, w13, w14, w15, w16, w17, hr⟩
  | memory_limit hb hr ih =>
    obtain ⟨w1, w2, w3, w4, w5, w6, w7, w8, w9, w10, w11, w12, w13, w14, w15, w16, w17, w18⟩ := ih
    exact ⟨w1, w2, w3, w4, w5, w6, w7, w8, w9, w10, w11, w12, w13, w14, w15, w16, hr, w18⟩

theorem headerOk_of_wf {j : Minijail} (hw : WF j) (hcnt : j.binding_count < 2 ^ 31) :
    HeaderOk (hdrOf j) := by
  obtain ⟨w1, w2, w3, w4, w5, w6, w7, w8, w9, w10, w11, w12, w13, w14, w15,
    w16, w17, w18⟩ := hw
  exact ⟨w1, w2, w3, w4, w5, w6, hcnt, w15, w16, w17, w18⟩

theorem isSome_mark (b : Bool) :
    (if b then some ([] : List Nat) else none).isSome = b := by
  cases b <;> simp

theorem readStr_opt (o old : Option (List Nat)) (r : List Nat)
    (hok : ∀ s, o = some s → ByteOk s) (hold : o = none → old = none) :
    readStr o.isSome old (optStr o ++ r) = some (o, r) := by
  cases o with
  | none => simp [readStr, optStr, hold rfl]
  | some s =>
    simp only [Option.isSome_some, readStr, if_pos, optStr]
    rw [consumestr_strBytes s r (hok s rfl)]

theorem filterBytes_of_none {j : Minijail} (hp : j.filter_prog = none) :
    filterBytes j = [] := by
  simp [filterBytes, hp]

theorem filterBytes_of_empty {j : Minijail} (hp : j.filter_prog = some []) :
    filterBytes j = [] := by
  unfold filterBytes
  split <;> simp [hp, encFilter]

theorem readFilter_spec (j j3 : Minijail) (r : List Nat)
    (hfl : j3.flags = j.flags) (hlen : j3.filter_len = j.filter_len)
    (hfp : j3.filter_prog = none) (hw : WF j)
    (hcons : ∀ p, j.filter_prog = some p → p ≠ [] → j.flags.seccomp_filter = true) :
    readFilter j3 (filterBytes j ++ r) =
      some ({ j3 with filter_prog :=
        if j.flags.seccomp_filter && decide (0 < j.filter_len) then j.filter_prog
        else none }, r) := by
  obtain ⟨w1, w2, w3, w4, w5, w6, w7, w8, w9, w10, w11, w12, w13, w14, w⟩ := hw
  have hj3 : { j3 with filter_prog := (none : Option (List SockFilter)) } = j3 := by
    obtain ⟨f, u, g, ug, us, cp, ip, fl, bc, cd, ch, fp, bs, sl, tl, ml, ol, mf⟩ := j3
    simp only [Minijail.mk.injEq] at hfp ⊢
    simp_all
  cases hp : j.filter_prog with
  | none =>
    have h0 : j.filter_len = 0 := w7 hp
    have hcond : (j3.flags.seccomp_filter && decide (0 < j3.filter_len)) = false := by
      simp [hlen, h0]
    unfold readFilter
    rw [filterBytes_of_none hp,
      if_neg (show ¬ (j3.flags.seccomp_filter && decide (0 < j3.filter_len)) = true by
        rw [hcond]; simp),
      if_neg (show ¬ (j.flags.seccomp_filter && decide (0 < j.filter_len)) = true by
        simp [h0]),
      hj3]
    simp
  | some p =>
    by_cases hpe : p = []
    · subst hpe
      have h0 : j.filter_len = 0 := by simpa using w8 [] hp
      have hcond : (j3.flags.seccomp_filter && decide (0 < j3.filter_len)) = false := by
        simp [hlen, h0]
      unfold readFilter
      rw [filterBytes_of_empty hp,
        if_neg (show ¬ (j3.flags.seccomp_filter && decide (0 < j3.filter_len)) = true by
          rw [hcond]; simp),
        if_neg (show ¬ (j.flags.seccomp_filter && decide (0 < j.filter_len)) = true by
          simp [h0]),
        hj3]
      simp
    · have hflag : j.flags.seccomp_filter = true := hcons p hp hpe
      have hplen : j.filter_len = p.length := w8 p hp
      have hpos : 0 < j.filter_len := by
        rw [hplen]
        exact List.length_pos.mpr hpe
      have hcond : (j3.flags.seccomp_filter && decide (0 < j3.filter_len)) = true := by
        simp [hfl, hlen, hflag, hpos]
      have hfb : filterBytes j = encFilter p := by
        simp [filterBytes, hp, hflag]
      unfold readFilter
      rw [if_pos hcond,
        if_neg (show ¬ j3.filter_len > USHRT_MAX by unfold USHRT_MAX; omega),
        hfb, hlen, hplen,
        consumebytes_append _ _ _ (by rw [encFilter_length])]
      simp only
      rw [decFilter_encFilter p (w12 p hp)]
      simp only [Option.some.injEq, Prod.mk.injEq, hp,
        if_pos (show (j.flags.seccomp_filter && decide (0 < p.length)) = true by
          simp [hflag, List.length_pos.mpr hpe])]

/-- The policy `minijail_unmarshal` rebuilds from a marshalled image: all
content fields are restored; `meta_file` is nulled; the binding counter is
recomputed by the `minijail_bind` replay (which also re-forces `vfs`); the
filter program is rebuilt only when the flag gates it in. -/
def roundTripResult (j : Minijail) : Minijail :=
  { j with
    meta_file := false,
    binding_count := j.bindings.length,
    flags := { j.flags with vfs := j.flags.vfs || !j.bindings.isEmpty },
    filter_prog := if j.flags.seccomp_filter && decide (0 < j.filter_len)
      then j.filter_prog else none }

theorem unmarshal_serialize (j : Minijail) (hw : WF j)
    (hcnt : j.binding_count < 2 ^ 31)
    (hcons : ∀ p, j.filter_prog = some p → p ≠ [] → j.flags.seccomp_filter = true) :
    minijail_unmarshal (serialize j) = some (roundTripResult j) := by
  have hok : HeaderOk (hdrOf j) := headerOk_of_wf hw hcnt
  have hlen : ¬ (serialize j).length < sizeofMinijail := by
    have := serialize_length_ge j
    omega
  have e1 : (serialize j).take sizeofMinijail = encodeHeader (hdrOf j) := by
    rw [serialize_decomp]
    exact take_append_of_length (encodeHeader_length _)
  have e2 : (serialize j).drop sizeofMinijail =
      optStr j.user ++ (optStr j.chrootdir ++ (optStr j.chdir ++
        (filterBytes j ++ bindingsBytes j.bindings))) := by
    rw [serialize_decomp]
    exact drop_append_of_length (encodeHeader_length _)
  have e3 : decodeHeader (encodeHeader (hdrOf j)) = hdrOf j := by
    have := decodeHeader_encodeHeader (hdrOf j) hok []
    simpa using this
  obtain ⟨w1, w2, w3, w4, w5, w6, w7, w8, w9, w10, w11, w12, w13, w14, w⟩ := hw
  unfold minijail_unmarshal
  rw [if_neg hlen, e1, e3, e2]
  simp only [jailOfHeader, hdrOf]
  rw [isSome_mark]
  rw [readStr_opt j.user _ _ w9 (fun h => by simp [h])]
  simp only
  rw [isSome_mark]
  rw [readStr_opt j.chrootdir _ _ w10 (fun h => by simp [h])]
  simp only
  rw [isSome_mark]
  rw [readStr_opt j.chdir _ _ w11 (fun h => by simp [h])]
  simp only
  rw [readFilter_spec j { j with filter_prog := none, bindings := [] }
    (bindingsBytes j.bindings) rfl rfl rfl
    ⟨w1, w2, w3, w4, w5, w6, w7, w8, w9, w10, w11, w12, w13, w14, w⟩ hcons]
  simp only
  have hbb : bindingsBytes j.bindings = bindingsBytes j.bindings ++ [] := by simp
  rw [hbb, show j.binding_count = j.bindings.length from w14,
    unmarshalBindings_spec j.bindings _ [] w13, foldl_bindOk]
  simp [roundTripResult]

/-- The instruction content of the attached filter program (empty when no
program is attached): the claim compares filters by length and bytes, with
the pointer identity excused. -/
def filterInstrs (j : Minijail) : List SockFilter := j.filter_prog.getD []

/-- Everything claim C1 requires `minijail_unmarshal` to reproduce: the flag
set, the numeric identities and caps mask, the three optional strings, the
filter length and instruction content, the binding list (content and
order), and the limits — excluding the transient `meta_file` handle and
the pointer identities, which do not exist in this model. -/
def obs (j : Minijail) :
    Flags × Nat × Nat × Nat × Option (List Nat) × Nat × Int × Nat × Nat ×
      Option (List Nat) × Option (List Nat) × List SockFilter × List Binding ×
      Int × Int × Int × Int :=
  (j.flags, j.uid, j.gid, j.usergid, j.user, j.caps, j.initpid, j.filter_len,
   j.binding_count, j.chrootdir, j.chdir, filterInstrs j, j.bindings,
   j.stack_limit, j.time_limit, j.memory_limit, j.output_limit)

theorem obs_roundTripResult (j : Minijail) (hfi : FlagInv j) (hw : WF j)
    (hcons : ∀ p, j.filter_prog = some p → p ≠ [] → j.flags.seccomp_filter = true) :
    obs (roundTripResult j) = obs j := by
  obtain ⟨w1, w2, w3, w4, w5, w6, w7, w8, w9, w10, w11, w12, w13, w14, w⟩ := hw
  have hflags : { j.flags with vfs := j.flags.vfs || !j.bindings.isEmpty } = j.flags := by
    cases hbe : j.bindings with
    | nil => simp [hbe]
    | cons b bs =>
      have hv : j.flags.vfs = true := hfi.2 (by simp [hbe])
      simp only [List.isEmpty_cons, Bool.not_false, Bool.or_true]
      rw [← hv]
  have hfp : (if j.flags.seccomp_filter && decide (0 < j.filter_len)
      then j.filter_prog else none).getD [] = j.filter_prog.getD [] := by
    split
    · rfl
    · rename_i hc
      cases hp : j.filter_prog with
      | none => rfl
      | some p =>
        cases p with
        | nil => rfl
        | cons i is =>
          exfalso
          apply hc
          have hflag := hcons (i :: is) hp (by simp)
          have hl := w8 (i :: is) hp
          simp [hflag, hl]
  unfold obs roundTripResult filterInstrs
  rw [hfp]
  simp only [hflags, w14]

/-- Claim C1, amended: the marshal/unmarshal round trip over an exact-size
buffer reproduces every builder-built policy — provided a policy carrying
a non-empty filter program also carries the `seccomp_filter` flag (the
builder allows attaching one without the flag, and the marshaller then
drops the instruction bytes), and the binding count fits a C `int`.
An attached empty program is rebuilt as an absent one; its length and
instruction bytes (none) are still reproduced. -/
theorem c1_round_trip_amended (j : Minijail) (hb : Built j)
    (hcons : ∀ p, j.filter_prog = some p → p ≠ [] → j.flags.seccomp_filter = true)
    (hcnt : j.binding_count < 2 ^ 31) :
    ∃ k, minijail_unmarshal (minijail_marshal j (minijail_size j)).2 = some k ∧
      obs k = obs j := by
  have hw := wf_of_built hb
  refine ⟨roundTripResult j, ?_,
    obs_roundTripResult j (flagInv_of_built hb) hw hcons⟩
  rw [marshal_exact]
  exact unmarshal_serialize j hw hcnt hcons

/-- A policy reachable through the public builder by calling
`minijail_parse_seccomp_filters` alone (one compiled instruction) without
`minijail_use_seccomp_filter`. -/
def c1_cex_jail : Minijail :=
  { minijail_new with
    filter_len := 1,
    filter_prog := some [{ code := 6, jt := 0, jf := 0, k := 0 }] }

/-- Claim C1 as stated is false: this builder-built policy holds one filter
instruction, yet unmarshalling its exact-size marshal image succeeds and
returns a policy with no instruction bytes at all (the marshaller only
emits the filter body when `flags.seccomp_filter` is set, which
`minijail_parse_seccomp_filters` does not set). -/
theorem c1_counterexample :
    Built c1_cex_jail ∧
    c1_cex_jail.filter_prog = some [{ code := 6, jt := 0, jf := 0, k := 0 }] ∧
    (minijail_unmarshal
        (minijail_marshal c1_cex_jail (minijail_size c1_cex_jail)).2).map
      filterInstrs = some [] := by
  refine ⟨@Built.parse_seccomp_filters minijail_new c1_cex_jail
    [{ code := 6, jt := 0, jf := 0, k := 0 }] Built.new (by decide) (by decide)
    (by decide), by decide, by decide⟩

/-- A concrete builder-built policy for the C1 witness: one bind call. -/
def c1_wit_jail : Minijail :=
  { minijail_new with
    flags := { minijail_new.flags with vfs := true },
    bindings := [{ src := [47, 120], dest := [47, 97], writeable := 1 }],
    binding_count := 1 }

theorem c1_round_trip_amended_witness :
    ∃ k, minijail_unmarshal
        (minijail_marshal c1_wit_jail (minijail_size c1_wit_jail)).2 = some k ∧
      obs k = obs c1_wit_jail :=
  c1_round_trip_amended c1_wit_jail
    (@Built.bind minijail_new c1_wit_jail [47, 120] [47, 97] 1 Built.new
      (by decide) (by decide) (by decide) (by decide))
    (by intro p hp; simp [c1_wit_jail, minijail_new] at hp)
    (by decide)

/-- SIGSYS on Linux (asm-generic signal numbers; system headers). -/
def SIGSYS : Nat := 31

/-- Modelled from the spec: `MINIJAIL_ERR_JAIL` lives in libminijail.h, which
is not under src/; the spec names the constant `ERR_JAIL` (returned when
the target was killed by SIGSYS) without fixing its numeric value.  Only
its identity matters to the claim; 253 is used here, distinct from every
`128 + s` for a real signal s and from every exit status the mapping can
return. -/
def MINIJAIL_ERR_JAIL : Int := 253

/-- glibc wait-status decoding (sys/wait.h, environment): `WIFEXITED` is
`(st & 0x7f) == 0`. -/
def WIFEXITED (st : Nat) : Prop := st % 128 = 0

instance (st : Nat) : Decidable (WIFEXITED st) := by
  unfold WIFEXITED; infer_instance

/-- `WEXITSTATUS` is `(st & 0xff00) >> 8`. -/
def WEXITSTATUS (st : Nat) : Nat := st / 256 % 256

/-- `WTERMSIG` is `st & 0x7f`. -/
def WTERMSIG (st : Nat) : Nat := st % 128

/-- `WIFSIGNALED` is `((signed char)((st & 0x7f) + 1)) >> 1 > 0`: true
exactly when the low seven bits are neither 0 (normal exit) nor 0x7f
(stopped) — the signed-char cast makes 0x7f + 1 negative. -/
def WIFSIGNALED (st : Nat) : Prop := 1 ≤ st % 128 ∧ st % 128 ≤ 126

instance (st : Nat) : Decidable (WIFSIGNALED st) := by
  unfold WIFSIGNALED; infer_instance

/-- `minijail_wait` (lines 1464-1498) after a successful `waitpid` returned
status `st`: a normally-exited child yields its exit status; a signalled
child yields `MINIJAIL_ERR_JAIL` for SIGSYS and `128 + signum` otherwise;
a status that is neither (not produced by this waitpid call) is returned
raw, as in the C. -/
def minijail_wait_status (st : Nat) : Int :=
  if ¬ WIFEXITED st then
    if WIFSIGNALED st then
      if WTERMSIG st = SIGSYS then MINIJAIL_ERR_JAIL else 128 + (WTERMSIG st : Int)
    else (st : Int)
  else (WEXITSTATUS st : Int)

/-- The kernel wait-status word for a normal exit with status n (n masked to
8 bits by the kernel): `n << 8`. -/
def exitStatusWord (n : Nat) : Nat := 256 * n

/-- Claim C2: `minijail_wait` maps a normal exit with status n to n; for a
status reporting death by a signal (`WIFSIGNALED`, which covers both the
plain and the core-dump encodings) it returns `128 + WTERMSIG` when the
signal is not SIGSYS and `MINIJAIL_ERR_JAIL` when it is. -/
theorem c2_exit_code_mapping (n st : Nat) (hn : n < 256) :
    minijail_wait_status (exitStatusWord n) = n ∧
    (WIFSIGNALED st → WTERMSIG st ≠ SIGSYS →
      minijail_wait_status st = 128 + (WTERMSIG st : Int)) ∧
    (WIFSIGNALED st → WTERMSIG st = SIGSYS →
      minijail_wait_status st = MINIJAIL_ERR_JAIL) := by
  unfold minijail_wait_status WIFEXITED WIFSIGNALED WTERMSIG WEXITSTATUS SIGSYS
    exitStatusWord MINIJAIL_ERR_JAIL
  refine ⟨by split_ifs <;> omega, ?_, ?_⟩
  · intro hsig hns
    split_ifs <;> omega
  · intro hsig hsy
    split_ifs <;> omega

/-- Witness for C2 at exit status 7, and at the status words for SIGKILL (9)
and SIGSYS (31). -/
theorem c2_exit_code_mapping_witness :
    (minijail_wait_status (exitStatusWord 7) = 7 ∧
      (WIFSIGNALED 9 → WTERMSIG 9 ≠ SIGSYS →
        minijail_wait_status 9 = 128 + (WTERMSIG 9 : Int)) ∧
      (WIFSIGNALED 9 → WTERMSIG 9 = SIGSYS →
        minijail_wait_status 9 = MINIJAIL_ERR_JAIL)) ∧
    (minijail_wait_status (exitStatusWord 7) = 7 ∧
      (WIFSIGNALED 31 → WTERMSIG 31 ≠ SIGSYS →
        minijail_wait_status 31 = 128 + (WTERMSIG 31 : Int)) ∧
      (WIFSIGNALED 31 → WTERMSIG 31 = SIGSYS →
        minijail_wait_status 31 = MINIJAIL_ERR_JAIL)) :=
  ⟨c2_exit_code_mapping 7 9 (by decide), c2_exit_code_mapping 7 31 (by decide)⟩

theorem intDiv_1000 (a : Int) (h : 0 ≤ a) :
    Int.div a 1000 = ((a.toNat / 1000 : Nat) : Int) := by
  obtain ⟨m, rfl⟩ := Int.eq_ofNat_of_zero_le h
  rfl

/-- The SIGALRM arming of the init supervisor (lines 921-925):
`alarm((j->time_limit + 1999) / 1000)`, armed only under the time_limit
flag.  C `int` division truncates toward zero, which is `Int.div`. -/
def init_alarm (j : Minijail) : Option Int :=
  if j.flags.time_limit then some (Int.div (j.time_limit + 1999) 1000) else none

/-- The RLIMIT_CPU pair set by `setup_limits` (lines 1114-1119):
`rlim_cur = (999 + j->time_limit) / 1000`, `rlim_max = rlim_cur + 1`. -/
def setup_limits_cpu (j : Minijail) : Option (Int × Int) :=
  if j.flags.time_limit then
    some (Int.div (999 + j.time_limit) 1000, Int.div (999 + j.time_limit) 1000 + 1)
  else none

/-- The `ualarm` first argument (line 1121): `j->time_limit * 1000`
microseconds. -/
def setup_limits_ualarm (j : Minijail) : Option Int :=
  if j.flags.time_limit then some (j.time_limit * 1000) else none

/-- Claim C8: with time limit t ms, `setup_limits` sets RLIMIT_CPU's soft
limit to the integer ceiling of t/1000 seconds (characterized as the least
whole-second budget covering t), the hard limit to soft+1, and arms
`ualarm(t*1000, 0)`; the init supervisor's alarm of `(t+1999)/1000`
seconds is exactly that soft limit plus one — one wall second of slack
past the RLIMIT_CPU budget. -/
theorem c8_time_limit_arithmetic (j : Minijail) (t : Int)
    (hf : j.flags.time_limit = true) (ht : j.time_limit = t) (hpos : 0 ≤ t) :
    ∃ soft, setup_limits_cpu j = some (soft, soft + 1) ∧
      t ≤ 1000 * soft ∧ 1000 * (soft - 1) < t ∧
      init_alarm j = some (soft + 1) ∧
      init_alarm j = some (Int.div (t + 1999) 1000) ∧
      setup_limits_ualarm j = some (t * 1000) := by
  subst ht
  refine ⟨Int.div (999 + j.time_limit) 1000, ?_, ?_, ?_, ?_, ?_, ?_⟩
  · unfold setup_limits_cpu
    rw [if_pos hf]
  · rw [intDiv_1000 _ (by omega)]
    omega
  · rw [intDiv_1000 _ (by omega)]
    omega
  · unfold init_alarm
    rw [if_pos hf, intDiv_1000 _ (by omega), intDiv_1000 _ (by omega)]
    simp only [Option.some.injEq]
    omega
  · unfold init_alarm
    rw [if_pos hf]
  · unfold setup_limits_ualarm
    rw [if_pos hf]

/-- Witness for C8 at t = 1500 ms on a builder-reachable policy. -/
theorem c8_time_limit_arithmetic_witness :
    ∃ soft, setup_limits_cpu (minijail_time_limit minijail_new 1500) =
        some (soft, soft + 1) ∧
      1500 ≤ 1000 * soft ∧ 1000 * (soft - 1) < 1500 ∧
      init_alarm (minijail_time_limit minijail_new 1500) = some (soft + 1) ∧
      init_alarm (minijail_time_limit minijail_new 1500) =
        some (Int.div (1500 + 1999) 1000) ∧
      setup_limits_ualarm (minijail_time_limit minijail_new 1500) =
        some (1500 * 1000) :=
  c8_time_limit_arithmetic (minijail_time_limit minijail_new 1500) 1500
    (by decide) (by decide) (by decide)

/-- The policy state `minijail_meta_file` leaves behind when `fopen` fails:
the flag was set before the open was attempted. -/
def c9_meta_fail_jail : Minijail :=
  { minijail_new with flags := { minijail_new.flags with meta_file := true } }

/-- Claim C9 as stated is false: `minijail_change_uid(j, 0)` and
`minijail_change_gid(j, 0)` terminate the process through `die` instead of
returning an error code; `minijail_parse_seccomp_filters` dies when the
filter file cannot be opened or compiled; and `minijail_meta_file` sets
`flags.meta_file` before attempting `fopen`, so on failure it returns -1
with the policy mutated. -/
theorem c9_counterexample :
    minijail_change_uid minijail_new 0 = .died ∧
    minijail_change_gid minijail_new 0 = .died ∧
    minijail_parse_seccomp_filters minijail_new false none = .died ∧
    minijail_parse_seccomp_filters minijail_new true none = .died ∧
    minijail_meta_file minijail_new false = .err (-1) c9_meta_fail_jail ∧
    c9_meta_fail_jail ≠ minijail_new := by
  refine ⟨rfl, rfl, rfl, rfl, by decide, by decide⟩

/-- Claim C9, amended: `minijail_enter_chroot`, `minijail_chroot_chdir`,
`minijail_bind`, `minijail_change_user` and `minijail_change_group` report
failure by returning an error code and leave the policy unchanged on every
failure path (lookup failure for user/group; modelling allocation as
succeeding); but `minijail_change_uid`/`minijail_change_gid` die on id 0,
`minijail_parse_seccomp_filters` dies on open or compile failure, and
`minijail_meta_file` returns -1 on `fopen` failure with `flags.meta_file`
already set (the policy is mutated). -/
theorem c9_error_propagation_amended (j : Minijail) (dir src dest user : List Nat)
    (w : Int) :
    (j.chrootdir ≠ none → minijail_enter_chroot j dir = .err (-EINVAL) j) ∧
    ((j.chrootdir = none ∨ j.chdir ≠ none ∨ dir.headD 0 ≠ 47) →
      minijail_chroot_chdir j dir = .err (-EINVAL) j) ∧
    (dest.headD 0 ≠ 47 → minijail_bind j src dest w = .err (-EINVAL) j) ∧
    minijail_change_user j user none = .err (-1) j ∧
    minijail_change_group j none = .err (-1) j ∧
    minijail_change_uid j 0 = .died ∧
    minijail_change_gid j 0 = .died ∧
    (∀ compiled, minijail_parse_seccomp_filters j false compiled = .died) ∧
    minijail_parse_seccomp_filters j true none = .died ∧
    minijail_meta_file j false =
      .err (-1) { j with
        flags := { j.flags with meta_file := true },
        meta_file := false } := by
  refine ⟨?_, ?_, ?_, rfl, rfl, rfl, rfl, fun c => rfl, rfl, rfl⟩
  · intro h
    unfold minijail_enter_chroot
    rw [if_pos h]
  · intro h
    unfold minijail_chroot_chdir
    rcases h with h | h | h
    · rw [if_pos h]
    · by_cases h1 : j.chrootdir = none
      · rw [if_pos h1]
      · rw [if_neg h1, if_pos h]
    · by_cases h1 : j.chrootdir = none
      · rw [if_pos h1]
      · by_cases h2 : j.chdir ≠ none
        · rw [if_neg h1, if_pos h2]
        · rw [if_neg h1, if_neg h2, if_pos h]
  · intro h
    unfold minijail_bind
    rw [if_pos h]

/-- A concrete policy for the C9 witness, with a chrootdir already set. -/
def c9_wit_jail : Minijail :=
  { minijail_new with
    flags := { minijail_new.flags with chroot := true },
    chrootdir := some [47, 106] }

/-- Witness for the amended C9 on a concrete policy with a chrootdir already
set and a relative bind dest. -/
theorem c9_error_propagation_amended_witness :
    (c9_wit_jail.chrootdir ≠ none →
      minijail_enter_chroot c9_wit_jail [47] = .err (-EINVAL) c9_wit_jail) ∧
    ((c9_wit_jail.chrootdir = none ∨ c9_wit_jail.chdir ≠ none ∨
        ([47] : List Nat).headD 0 ≠ 47) →
      minijail_chroot_chdir c9_wit_jail [47] = .err (-EINVAL) c9_wit_jail) ∧
    (([120] : List Nat).headD 0 ≠ 47 →
      minijail_bind c9_wit_jail [47] [120] 1 = .err (-EINVAL) c9_wit_jail) ∧
    minijail_change_user c9_wit_jail [98] none = .err (-1) c9_wit_jail ∧
    minijail_change_group c9_wit_jail none = .err (-1) c9_wit_jail ∧
    minijail_change_uid c9_wit_jail 0 = .died ∧
    minijail_change_gid c9_wit_jail 0 = .died ∧
    (∀ compiled, minijail_parse_seccomp_filters c9_wit_jail false compiled = .died) ∧
    minijail_parse_seccomp_filters c9_wit_jail true none = .died ∧
    minijail_meta_file c9_wit_jail false =
      .err (-1) { c9_wit_jail with
        flags := { c9_wit_jail.flags with meta_file := true },
        meta_file := false } :=
  c9_error_propagation_amended c9_wit_jail [47] [47] [120] [98] 1

/-- The byte stream `minijail_to_fd` writes into the policy pipe
(lines 1005-1033): the `size_t` header then the marshalled image; the pipe
itself is assumed to accept the write (environment).  Error returns mirror
the C: -EINVAL for a zero size, the truncation flag from
`minijail_marshal` otherwise. -/
def minijail_to_fd (j : Minijail) : Except Int (List Nat) :=
  if minijail_size j = 0 then .error (-EINVAL)
  else if (minijail_marshal j (minijail_size j)).1 then .error 1
  else .ok (encNat (minijail_size j) 8 ++ (minijail_marshal j (minijail_size j)).2)

/-- `minijail_from_fd` (lines 982-1003) reading from a stream of available
bytes: a short `size_t` read or short body read is -EINVAL; an announced
size above `USHRT_MAX` is rejected with -E2BIG before any body byte is
read; otherwise exactly `sz` body bytes feed `minijail_unmarshal`. -/
def minijail_from_fd (stream : List Nat) : Except Int Minijail :=
  if stream.length < 8 then .error (-EINVAL)
  else if decNat (stream.take 8) > USHRT_MAX then .error (-E2BIG)
  else if (stream.drop 8).length < decNat (stream.take 8) then .error (-EINVAL)
  else
    match minijail_unmarshal ((stream.drop 8).take (decNat (stream.take 8))) with
    | some j => .ok j
    | none => .error (-EINVAL)

/-- Claim C10: `minijail_from_fd` rejects any announced size above
`USHRT_MAX` with -E2BIG regardless of the stream body, so a policy whose
`minijail_size` exceeds 65535 bytes is written whole by `minijail_to_fd`
but its image can never be reconstructed by the receiving child. -/
theorem c10_pipe_size_cap (j : Minijail) (stream : List Nat)
    (hbig : minijail_size j > USHRT_MAX) (hfit : minijail_size j < 2 ^ 64)
    (hann : 8 ≤ stream.length) (hsz : decNat (stream.take 8) > USHRT_MAX) :
    (∃ out, minijail_to_fd j = .ok out ∧
      minijail_from_fd out = .error (-E2BIG)) ∧
    minijail_from_fd stream = .error (-E2BIG) := by
  constructor
  · have hnz : minijail_size j ≠ 0 := by unfold USHRT_MAX at hbig; omega
    have hmar : (minijail_marshal j (minijail_size j)).1 = false := by
      rw [minijail_marshal_eq]
      simp
    refine ⟨encNat (minijail_size j) 8 ++ (minijail_marshal j (minijail_size j)).2,
      ?_, ?_⟩
    · unfold minijail_to_fd
      rw [if_neg hnz, hmar]
      simp
    · unfold minijail_from_fd
      rw [if_neg (by simp only [List.length_append, encNat_length]; omega),
        take_append_of_length (encNat_length _ _),
        decNat_encNat _ 8 (by norm_num; omega)]
      rw [if_pos hbig]
  · unfold minijail_from_fd
    rw [if_neg (by omega), if_pos hsz]

/-- A policy whose serialization exceeds the pipe cap: a 65600-byte
chrootdir string. -/
def c10_big_jail : Minijail :=
  { minijail_new with
    flags := { minijail_new.flags with chroot := true },
    chrootdir := some (List.replicate 65600 97) }

theorem c10_big_jail_size : minijail_size c10_big_jail = 65675 := by
  rw [minijail_size_eq, serialize_decomp]
  have hu : optStr c10_big_jail.user = [] := rfl
  have hc : optStr c10_big_jail.chrootdir = List.replicate 65600 97 ++ [0] := rfl
  have hd : optStr c10_big_jail.chdir = [] := rfl
  have hf : filterBytes c10_big_jail = [] := rfl
  have hb : bindingsBytes c10_big_jail.bindings = [] := rfl
  rw [hu, hc, hd, hf, hb]
  rw [List.length_append, List.length_append, List.length_append,
    List.length_append, List.length_append, List.length_replicate,
    encodeHeader_length]
  rfl

theorem c10_pipe_size_cap_witness :
    (∃ out, minijail_to_fd c10_big_jail = .ok out ∧
      minijail_from_fd out = .error (-E2BIG)) ∧
    minijail_from_fd (List.replicate 8 255) = .error (-E2BIG) :=
  c10_pipe_size_cap c10_big_jail (List.replicate 8 255)
    (by rw [c10_big_jail_size]; decide) (by rw [c10_big_jail_size]; norm_num)
    (by decide) (by decide)

/-- The kernel-facing calls `minijail_enter` and its helpers make, in
program order. -/
inductive Ev where
  | unshare_vfs
  | unshare_net
  | mount_bind (src dest : List Nat) (writeable : Int)
  | mount_bind_ro (src dest : List Nat)
  | chroot_call
  | chdir_call
  | mount_tmp_call
  | remount_ro
  | keepcaps
  | securebits
  | initgroups
  | setgroups
  | setresgid
  | setresuid
  | cap_set_proc
  | capbset_drop (i : Nat)
  | set_no_new_privs
  | sigsys_handler
  | set_seccomp_filter_mode
  | set_seccomp_strict
deriving DecidableEq

/-- Calls of `bind_one`/`enter_chroot` (lines 615-652): each binding is bind
mounted and, when not writeable, remounted read-only, in list order; then
chroot and chdir. -/
def enter_chroot_trace (j : Minijail) : List Ev :=
  (j.bindings.map fun b =>
    Ev.mount_bind b.src b.dest b.writeable ::
      (if b.writeable = 0 then [Ev.mount_bind_ro b.src b.dest] else [])).flatten ++
  [Ev.chroot_call, Ev.chdir_call]

/-- Calls of `drop_ugid` (lines 684-701): the group change (initgroups when
inheriting, else setgroups when any id changes), then setresgid and
setresuid when their flags are set. -/
def drop_ugid_trace (j : Minijail) : List Ev :=
  (if j.flags.usergroups then [Ev.initgroups]
   else if j.uid ≠ 0 ∨ j.gid ≠ 0 then [Ev.setgroups] else []) ++
  (if j.flags.gid then [Ev.setresgid] else []) ++
  (if j.flags.uid then [Ev.setresuid] else [])

/-- Calls of `drop_caps` (lines 725-782): the first `cap_set_proc` applying
the cleaned sets, one `PR_CAPBSET_DROP` per unkept capability up to the
kernel-reported last cap, and the final `cap_set_proc` (after the optional
CAP_SETPCAP strip, which is in-memory only). -/
def drop_caps_trace (j : Minijail) (lastCap : Nat) : List Ev :=
  Ev.cap_set_proc ::
    ((((List.range 64).takeWhile fun i => i ≤ lastCap).filter
      fun i => ¬ j.caps.testBit i).map Ev.capbset_drop ++ [Ev.cap_set_proc])

/-- Calls of `set_seccomp_filter` (lines 784-812): `PR_SET_NO_NEW_PRIVS`
under the flag, the SIGSYS logging handler under the two flags, then the
`PR_SET_SECCOMP, SECCOMP_MODE_FILTER` load under the filter flag. -/
def set_seccomp_filter_trace (j : Minijail) : List Ev :=
  (if j.flags.no_new_privs then [Ev.set_no_new_privs] else []) ++
  (if j.flags.seccomp_filter && j.flags.log_seccomp_filter
    then [Ev.sigsys_handler] else []) ++
  (if j.flags.seccomp_filter then [Ev.set_seccomp_filter_mode] else [])

/-- The fixed prefix of `minijail_enter` (lines 828-855): namespaces,
chroot, tmpfs, readonly remount, and the KEEPCAPS/SECUREBITS prctls. -/
def enter_pre_trace (j : Minijail) : List Ev :=
  (if j.flags.vfs then [Ev.unshare_vfs] else []) ++
  (if j.flags.net then [Ev.unshare_net] else []) ++
  (if j.flags.chroot then enter_chroot_trace j else []) ++
  (if j.flags.chroot && j.flags.mount_tmp then [Ev.mount_tmp_call] else []) ++
  (if j.flags.readonly then [Ev.remount_ro] else []) ++
  (if j.flags.caps then [Ev.keepcaps, Ev.securebits] else [])

/-- `minijail_enter` (lines 814-889) as the ordered list of kernel calls it
makes when each call succeeds; `none` when the function dies on entry (a
pid-namespaced jail, or usergroup inheritance without a user name).  The
no_new_privs split (lines 862-881) orders the drops against the filter
install; strict-mode seccomp comes last. -/
def minijail_enter_trace (j : Minijail) (lastCap : Nat) : Option (List Ev) :=
  if j.flags.pids then none
  else if j.flags.usergroups && j.user.isNone then none
  else some (
    enter_pre_trace j ++
    ((if j.flags.no_new_privs then
        drop_ugid_trace j ++
          ((if j.flags.caps then drop_caps_trace j lastCap else []) ++
            set_seccomp_filter_trace j)
      else
        set_seccomp_filter_trace j ++
          (drop_ugid_trace j ++
            (if j.flags.caps then drop_caps_trace j lastCap else []))) ++
      (if j.flags.seccomp then [Ev.set_seccomp_strict] else [])))

/-- Identity-changing or capability-reducing calls, per claim C3. -/
def isIdCapEv : Ev → Bool
  | .initgroups => true
  | .setgroups => true
  | .setresgid => true
  | .setresuid => true
  | .cap_set_proc => true
  | .capbset_drop _ => true
  | _ => false

/-- The seccomp filter installation call. -/
def isFilterInstall : Ev → Bool
  | .set_seccomp_filter_mode => true
  | _ => false

theorem mem_ite_nil {c : Prop} [Decidable c] {l : List Ev} {e : Ev} :
    (e ∈ if c then l else []) ↔ c ∧ e ∈ l := by
  split <;> simp_all

theorem index_lt_of_split {l1 l2 : List Ev} {p q : Ev → Bool}
    (h1 : ∀ e ∈ l1, q e = false) (h2 : ∀ e ∈ l2, p e = false)
    {a b : Nat} (ha : a < (l1 ++ l2).length) (hb : b < (l1 ++ l2).length)
    (hpa : p ((l1 ++ l2)[a]) = true) (hqb : q ((l1 ++ l2)[b]) = true) :
    a < b := by
  have haL : a < l1.length := by
    by_contra hcon
    push_neg at hcon
    have hmem : (l1 ++ l2)[a] ∈ l2 := by
      rw [List.getElem_append_right hcon]
      exact List.getElem_mem _
    rw [h2 _ hmem] at hpa
    exact Bool.noConfusion hpa
  have hbL : l1.length ≤ b := by
    by_contra hcon
    push_neg at hcon
    have hmem : (l1 ++ l2)[b] ∈ l1 := by
      rw [List.getElem_append_left hcon]
      exact List.getElem_mem _
    rw [h1 _ hmem] at hqb
    exact Bool.noConfusion hqb
  omega

theorem no_filter_pre (j : Minijail) :
    ∀ e ∈ enter_pre_trace j, isFilterInstall e = false := by
  intro e he
  cases e <;>
    simp_all [enter_pre_trace, enter_chroot_trace, mem_ite_nil, isFilterInstall]

theorem no_idcap_pre (j : Minijail) :
    ∀ e ∈ enter_pre_trace j, isIdCapEv e = false := by
  intro e he
  cases e <;>
    simp_all [enter_pre_trace, enter_chroot_trace, mem_ite_nil, isIdCapEv]

theorem mem_ite_ite_nil {c d : Prop} [Decidable c] [Decidable d]
    {l1 l2 : List Ev} {e : Ev} :
    (e ∈ if c then l1 else if d then l2 else []) ↔
      (c ∧ e ∈ l1) ∨ (¬ c ∧ d ∧ e ∈ l2) := by
  split
  · simp_all
  · split <;> simp_all

theorem no_filter_drop_ugid (j : Minijail) :
    ∀ e ∈ drop_ugid_trace j, isFilterInstall e = false := by
  intro e he
  cases e <;>
    simp_all [drop_ugid_trace, mem_ite_nil, mem_ite_ite_nil, isFilterInstall]

theorem no_filter_drop_caps (j : Minijail) (lastCap : Nat) :
    ∀ e ∈ drop_caps_trace j lastCap, isFilterInstall e = false := by
  intro e he
  cases e <;> simp_all [drop_caps_trace, isFilterInstall]

theorem no_idcap_ssf (j : Minijail) :
    ∀ e ∈ set_seccomp_filter_trace j, isIdCapEv e = false := by
  intro e he
  cases e <;> simp_all [set_seccomp_filter_trace, mem_ite_nil, isIdCapEv]

theorem no_filter_strict (j : Minijail) :
    ∀ e ∈ (if j.flags.seccomp = true then [Ev.set_seccomp_strict] else []),
      isFilterInstall e = false := by
  intro e he
  cases e <;> simp_all [mem_ite_nil, isFilterInstall]

theorem no_idcap_strict (j : Minijail) :
    ∀ e ∈ (if j.flags.seccomp = true then [Ev.set_seccomp_strict] else []),
      isIdCapEv e = false := by
  intro e he
  cases e <;> simp_all [mem_ite_nil, isIdCapEv]

theorem index_lt_of_split_eq (l l1 l2 : List Ev) (p q : Ev → Bool)
    (hl : l = l1 ++ l2)
    (h1 : ∀ e ∈ l1, q e = false) (h2 : ∀ e ∈ l2, p e = false)
    {a b : Nat} (ha : a < l.length) (hb : b < l.length)
    (hpa : p (l[a]) = true) (hqb : q (l[b]) = true) : a < b := by
  subst hl
  exact index_lt_of_split h1 h2 ha hb hpa hqb

/-- Claim C3: in `minijail_enter`, when `no_new_privs` is set every
identity-changing call (initgroups/setgroups/setresgid/setresuid) and
every capability-reduction call (capset application, PR_CAPBSET_DROP)
comes strictly before the `PR_SET_SECCOMP, SECCOMP_MODE_FILTER` load;
when it is clear, the filter load comes strictly before all of them. -/
theorem c3_no_new_privs_ordering (j : Minijail) (lastCap : Nat) (t : List Ev)
    (ht : minijail_enter_trace j lastCap = some t) :
    (j.flags.no_new_privs = true →
      ∀ a b, ∀ ha : a < t.length, ∀ hb : b < t.length,
        isIdCapEv (t[a]) = true → isFilterInstall (t[b]) = true → a < b) ∧
    (j.flags.no_new_privs = false →
      ∀ a b, ∀ ha : a < t.length, ∀ hb : b < t.length,
        isFilterInstall (t[a]) = true → isIdCapEv (t[b]) = true → a < b) := by
  unfold minijail_enter_trace at ht
  by_cases hp : j.flags.pids = true
  · rw [if_pos hp] at ht
    exact absurd ht (by simp)
  rw [if_neg hp] at ht
  by_cases hu : (j.flags.usergroups && j.user.isNone) = true
  · rw [if_pos hu] at ht
    exact absurd ht (by simp)
  rw [if_neg hu] at ht
  by_cases hnnp : j.flags.no_new_privs = true
  · rw [if_pos hnnp] at ht
    simp only [Option.some.injEq] at ht
    subst ht
    constructor
    · intro _ a b ha hb hpa hqb
      refine index_lt_of_split_eq _
        (enter_pre_trace j ++ (drop_ugid_trace j ++
          (if j.flags.caps = true then drop_caps_trace j lastCap else [])))
        (set_seccomp_filter_trace j ++
          (if j.flags.seccomp = true then [Ev.set_seccomp_strict] else []))
        isIdCapEv isFilterInstall (by simp [List.append_assoc]) ?_ ?_ ha hb hpa hqb
      · intro e he
        rcases List.mem_append.mp he with h | h
        · exact no_filter_pre j e h
        · rcases List.mem_append.mp h with h | h
          · exact no_filter_drop_ugid j e h
          · exact no_filter_drop_caps j lastCap e (mem_ite_nil.mp h).2
      · intro e he
        rcases List.mem_append.mp he with h | h
        · exact no_idcap_ssf j e h
        · exact no_idcap_strict j e h
    · intro hfalse
      rw [hnnp] at hfalse
      exact absurd hfalse (by simp)
  · rw [if_neg hnnp] at ht
    simp only [Option.some.injEq] at ht
    subst ht
    constructor
    · intro htrue
      exact absurd htrue hnnp
    · intro _ a b ha hb hpa hqb
      refine index_lt_of_split_eq _
        (enter_pre_trace j ++ set_seccomp_filter_trace j)
        (drop_ugid_trace j ++
          ((if j.flags.caps = true then drop_caps_trace j lastCap else []) ++
            (if j.flags.seccomp = true then [Ev.set_seccomp_strict] else [])))
        isFilterInstall isIdCapEv (by simp [List.append_assoc]) ?_ ?_ ha hb hpa hqb
      · intro e he
        rcases List.mem_append.mp he with h | h
        · exact no_idcap_pre j e h
        · exact no_idcap_ssf j e h
      · intro e he
        rcases List.mem_append.mp he with h | h
        · exact no_filter_drop_ugid j e h
        · rcases List.mem_append.mp h with h | h
          · exact no_filter_drop_caps j lastCap e (mem_ite_nil.mp h).2
          · exact no_filter_strict j e h

/-- A concrete policy for the C3 witness: uid change with no_new_privs and a
seccomp filter. -/
def c3_wit_jail : Minijail :=
  { minijail_new with
    flags := { minijail_new.flags with
      uid := true, no_new_privs := true, seccomp_filter := true },
    uid := 1000 }

/-- Witness for C3: the concrete trace of `c3_wit_jail` is
setgroups, setresuid, PR_SET_NO_NEW_PRIVS, then the filter load, and the
theorem places the setgroups call (index 0) before the load (index 3). -/
theorem c3_no_new_privs_ordering_witness :
    minijail_enter_trace c3_wit_jail 39 =
      some [Ev.setgroups, Ev.setresuid, Ev.set_no_new_privs,
        Ev.set_seccomp_filter_mode] ∧
    (0 : Nat) < 3 :=
  ⟨by decide,
    (c3_no_new_privs_ordering c3_wit_jail 39
        [Ev.setgroups, Ev.setresuid, Ev.set_no_new_privs,
          Ev.set_seccomp_filter_mode] (by decide)).1
      rfl 0 3 (by decide) (by decide) (by decide) (by decide)⟩

/-- PATH_MAX from limits.h (environment). -/
def PATH_MAX : Nat := 4096

/-- The C string stored at the base of a fixed-size buffer: the bytes before
the first NUL. -/
def cstr (buf : List Nat) : List Nat := buf.takeWhile fun b => b ≠ 0

/-- Byte-wise store into a fixed-size buffer at a position (the buffer keeps
its length; stores past the end are clipped, which no guarded call ever
does). -/
def overwrite (buf : List Nat) (pos : Nat) (src : List Nat) : List Nat :=
  buf.take pos ++ src.take (buf.length - pos) ++ buf.drop (pos + src.length)

/-- `strncpy(buf + pos, src, n)`: copies src up to its terminator and
NUL-pads to exactly n bytes. -/
def strncpyAt (buf : List Nat) (pos : Nat) (src : List Nat) (n : Nat) : List Nat :=
  overwrite buf pos ((src ++ List.replicate (n - src.length) 0).take n)

/-- `snprintf(buf + pos, n, "/%s", path)`: at most n-1 bytes of the slash
plus path, then a NUL; n = 0 writes nothing. -/
def snprintfSlashAt (buf : List Nat) (pos : Nat) (path : List Nat) (n : Nat) :
    List Nat :=
  if n = 0 then buf else overwrite buf pos ((47 :: path).take (n - 1) ++ [0])

/-- `memmove(buf + dst, buf + src, n)` inside one buffer. -/
def memmoveAt (buf : List Nat) (dst src n : Nat) : List Nat :=
  overwrite buf dst ((buf.drop src).take n)

/-- `concat_path` (lines 1523-1543): appends `path` to the string in
`buffer`, deduplicating one separating '/', bounded by the given
`buffer_len` argument.  Returns the C result int with the new buffer. -/
def concat_path (buf : List Nat) (buffer_len : Nat) (path : List Nat) :
    Int × List Nat :=
  let len := (cstr buf).length
  let pathlen := path.length
  if 0 < len ∧ buf.getD (len - 1) 0 ≠ 47 ∧ path.headD 0 ≠ 47 then
    if len + pathlen + 1 ≥ buffer_len then (-1, buf)
    else (0, snprintfSlashAt buf len path (buffer_len - len - 1))
  else if 0 < len ∧ buf.getD (len - 1) 0 = 47 ∧ path.headD 0 = 47 then
    if len + pathlen ≥ buffer_len then (-1, buf)
    else (0, strncpyAt buf len (path.drop 1) (buffer_len - len))
  else
    if len + pathlen ≥ buffer_len then (-1, buf)
    else (0, strncpyAt buf len path (buffer_len - len))

/-- What `lstat`/`readlink` see at a host path: the filesystem is the
environment. -/
inductive FKind where
  | reg
  | lnk (target : List Nat)
  | other
  | missing
deriving DecidableEq

/-- The resolver's environment: the filesystem view and the process cwd
(`getcwd`). -/
structure Env where
  kind : List Nat → FKind
  cwd : List Nat

/-- The pure prefix of `minijail_get_path` (lines 1545-1606), up to but not
including the `lstat`: anchor a relative path on chdir/chroot/cwd,
normalize via `concat_path`, pick the binding whose dest is the longest
prefix of the buffer (first match wins ties, in list order, as the
`while (j->bindings_tail)` walk does), trim the source of a trailing '/',
check space (with the C size_t wrap-around in `len - best_len`), then
shift the suffix and splice the source path in front.  Returns the C int
result (0 = resolved, 1 = error) with the buffer. -/
def resolve_path (env : Env) (j : Minijail) (buffer_len : Nat)
    (buf0 : List Nat) (path : List Nat) : Int × List Nat :=
  let buf1 := buf0.set 0 0
  let anchored : Int × List Nat :=
    if path.headD 0 ≠ 47 then
      if j.flags.chdir then concat_path buf1 buffer_len (j.chdir.getD [])
      else if j.flags.chroot then concat_path buf1 buffer_len [47]
      else
        if env.cwd.length + 1 > buffer_len then (1, buf1)
        else (0, overwrite buf1 0 (env.cwd ++ [0]))
    else (0, buf1)
  if anchored.1 ≠ 0 then (1, anchored.2)
  else
    let buf2 := anchored.2
    let len0 := (cstr buf2).length
    let c2 := concat_path buf2 (buffer_len - len0) path
    if c2.1 ≠ 0 then (1, c2.2)
    else
      let buf3 := c2.2
      let len := (cstr buf3).length
      let best : Option Binding × Nat :=
        j.bindings.foldl (fun acc cur =>
          if (cstr buf3).take cur.dest.length = cur.dest ∧ acc.2 < cur.dest.length
            then (some cur, cur.dest.length) else acc) (none, 0)
      let chosen : List Nat × Nat :=
        match best.1 with
        | some b => (b.src, best.2)
        | none => if j.flags.chroot then (j.chrootdir.getD [], 1) else ([47], 1)
      let src_path := chosen.1
      let best_len := chosen.2
      let src_len :=
        if src_path.getD (src_path.length - 1) 0 = 47 then src_path.length - 1
        else src_path.length
      if (len + 2 ^ 64 - best_len) % 2 ^ 64 + src_len + 2 ≥ buffer_len then (1, buf3)
      else
        let buf4 := memmoveAt buf3 (src_len + 1) best_len (len - best_len)
        let buf5 := overwrite buf4 0 (src_path.take src_len)
        (0, buf5.set src_len 47)

/-- Result of one `minijail_get_path` call: the returned int with the final
buffer, or fuel exhaustion (the C recursion has no base case of its own). -/
inductive GPRes where
  | done (ret : Int) (buf : List Nat)
  | outOfFuel
deriving DecidableEq

/-- `minijail_get_path` (lines 1545-1633) under explicit fuel: compute the
host path, `lstat` it, succeed on a regular file, fail on a missing path
or any other non-symlink kind, and recurse on a symlink through a
PATH_MAX-truncating `readlink`. -/
def minijail_get_path_fuel (env : Env) (j : Minijail) (buffer_len : Nat) :
    Nat → List Nat → List Nat → GPRes
  | 0, _, _ => .outOfFuel
  | fuel + 1, buf, path =>
    let r := resolve_path env j buffer_len buf path
    if r.1 ≠ 0 then .done r.1 r.2
    else
      match env.kind (cstr r.2) with
      | .reg => .done 0 r.2
      | .missing => .done 1 r.2
      | .other => .done 1 r.2
      | .lnk target =>
        minijail_get_path_fuel env j buffer_len fuel r.2 (target.take PATH_MAX)

/-- The recursion of `minijail_get_path` terminates on a given input. -/
def GetPathTerminates (env : Env) (j : Minijail) (buffer_len : Nat)
    (buf path : List Nat) : Prop :=
  ∃ fuel, minijail_get_path_fuel env j buffer_len fuel buf path ≠ .outOfFuel

/-- The claim C6 policy: bindings (/x over /a) then (/y over /a/b), as two
`minijail_bind` calls leave it. -/
def c6_jail : Minijail :=
  { minijail_new with
    flags := { minijail_new.flags with vfs := true },
    bindings := [{ src := [47, 120], dest := [47, 97], writeable := 0 },
                 { src := [47, 121], dest := [47, 97, 47, 98], writeable := 0 }],
    binding_count := 2 }

/-- A filesystem where the claimed host path /y/c is a regular file and
nothing else exists. -/
def c6_env : Env :=
  { kind := fun p => if p = [47, 121, 47, 99] then .reg else .missing,
    cwd := [47] }

set_option maxRecDepth 8192 in
/-- Claim C6 at its own inputs: on "/a/b/c" the code picks the longest
matching dest "/a/b" but the suffix shift never moves the NUL terminator
and re-inserts a separator, so the computed host path is "/y//cc", not the
claimed "/y/c"; the subsequent lstat of "/y//cc" then fails (returns 1)
even though /y/c exists.  On "/a/d" the code computes "/x//d", not the
claimed "/x/d". -/
theorem c6_code_eval :
    cstr (resolve_path c6_env c6_jail 64 (List.replicate 64 0)
        [47, 97, 47, 98, 47, 99]).2 = [47, 121, 47, 47, 99, 99] ∧
    ([47, 121, 47, 47, 99, 99] : List Nat) ≠ [47, 121, 47, 99] ∧
    minijail_get_path_fuel c6_env c6_jail 64 8 (List.replicate 64 0)
        [47, 97, 47, 98, 47, 99] =
      .done 1 (resolve_path c6_env c6_jail 64 (List.replicate 64 0)
        [47, 97, 47, 98, 47, 99]).2 ∧
    cstr (resolve_path c6_env c6_jail 64 (List.replicate 64 0)
        [47, 97, 47, 100]).2 = [47, 120, 47, 47, 100] ∧
    ([47, 120, 47, 47, 100] : List Nat) ≠ [47, 120, 47, 100] := by
  refine ⟨by decide, by decide, by decide, by decide, by decide⟩

/-- Big-step relation of the `minijail_get_path` recursion: one rule per
exit of the C function body plus the symlink recursion. -/
inductive GetPathBig (env : Env) (j : Minijail) (buffer_len : Nat) :
    List Nat → List Nat → Int → List Nat → Prop
  | fail {buf path : List Nat} {r : Int} {buf1 : List Nat} :
      resolve_path env j buffer_len buf path = (r, buf1) → r ≠ 0 →
      GetPathBig env j buffer_len buf path r buf1
  | reg {buf path buf1 : List Nat} :
      resolve_path env j buffer_len buf path = (0, buf1) →
      env.kind (cstr buf1) = .reg →
      GetPathBig env j buffer_len buf path 0 buf1
  | missing {buf path buf1 : List Nat} :
      resolve_path env j buffer_len buf path = (0, buf1) →
      env.kind (cstr buf1) = .missing →
      GetPathBig env j buffer_len buf path 1 buf1
  | other {buf path buf1 : List Nat} :
      resolve_path env j buffer_len buf path = (0, buf1) →
      env.kind (cstr buf1) = .other →
      GetPathBig env j buffer_len buf path 1 buf1
  | step {buf path buf1 target : List Nat} {r : Int} {buf2 : List Nat} :
      resolve_path env j buffer_len buf path = (0, buf1) →
      env.kind (cstr buf1) = .lnk target →
      GetPathBig env j buffer_len buf1 (target.take PATH_MAX) r buf2 →
      GetPathBig env j buffer_len buf path r buf2

theorem getPathBig_fuel {env : Env} {j : Minijail} {L : Nat}
    {buf path : List Nat} {r : Int} {bufr : List Nat}
    (h : GetPathBig env j L buf path r bufr) :
    ∃ fuel, minijail_get_path_fuel env j L fuel buf path = .done r bufr := by
  induction h with
  | fail hres hr =>
    refine ⟨1, ?_⟩
    rw [minijail_get_path_fuel, hres]
    simp only
    rw [if_pos hr]
  | reg hres hk =>
    refine ⟨1, ?_⟩
    rw [minijail_get_path_fuel, hres]
    simp only
    rw [if_neg (by simp), hk]
  | missing hres hk =>
    refine ⟨1, ?_⟩
    rw [minijail_get_path_fuel, hres]
    simp only
    rw [if_neg (by simp), hk]
  | other hres hk =>
    refine ⟨1, ?_⟩
    rw [minijail_get_path_fuel, hres]
    simp only
    rw [if_neg (by simp), hk]
  | step hres hk hrec ih =>
    obtain ⟨n, hn⟩ := ih
    refine ⟨n + 1, ?_⟩
    rw [minijail_get_path_fuel, hres]
    simp only
    rw [if_neg (by simp), hk]
    exact hn

/-- The cyclic filesystem: /l is a symlink to itself. -/
def c7_env : Env :=
  { kind := fun p => if p = [47, 108] then .lnk [47, 108] else .missing,
    cwd := [47] }

/-- The buffer the resolver computes for /l — a fixed point of the
recursion's buffer state. -/
def c7_cycle_buf : List Nat :=
  (resolve_path c7_env minijail_new 16 (List.replicate 16 0) [47, 108]).2

theorem c7_cycle_step (n : Nat) :
    minijail_get_path_fuel c7_env minijail_new 16 n c7_cycle_buf [47, 108] =
      .outOfFuel := by
  induction n with
  | zero => rfl
  | succ n ih =>
    rw [minijail_get_path_fuel,
      show resolve_path c7_env minijail_new 16 c7_cycle_buf [47, 108] =
        (0, c7_cycle_buf) from by decide]
    simp only
    rw [if_neg (by simp),
      show c7_env.kind (cstr c7_cycle_buf) = .lnk [47, 108] from by decide]
    exact ih

theorem c7_cycle_diverges :
    ¬ GetPathTerminates c7_env minijail_new 16 (List.replicate 16 0) [47, 108] := by
  rintro ⟨fuel, hfuel⟩
  apply hfuel
  cases fuel with
  | zero => rfl
  | succ n =>
    rw [minijail_get_path_fuel,
      show resolve_path c7_env minijail_new 16 (List.replicate 16 0) [47, 108] =
        (0, c7_cycle_buf) from by decide]
    simp only
    rw [if_neg (by simp),
      show c7_env.kind (cstr c7_cycle_buf) = .lnk [47, 108] from by decide]
    exact c7_cycle_step n

/-- Claim C7 as stated is false: on the cyclic symlink /l -> /l the
recursion of `minijail_get_path` never terminates — no amount of fuel
completes it — instead of failing with an error. -/
theorem c7_counterexample :
    ¬ GetPathTerminates c7_env minijail_new 16 (List.replicate 16 0) [47, 108] :=
  c7_cycle_diverges

/-- Claim C7, amended: the resolver follows any finite symlink chain —
whenever the big-step following relation reaches a result, the recursion
terminates with exactly that result — but it has no depth cap: on a
cyclic symlink chain it does not terminate (rather than failing with an
error). -/
theorem c7_symlink_termination_amended :
    (∀ (env : Env) (j : Minijail) (L : Nat) (buf path : List Nat) (r : Int)
      (bufr : List Nat), GetPathBig env j L buf path r bufr →
      ∃ fuel, minijail_get_path_fuel env j L fuel buf path = .done r bufr) ∧
    ¬ GetPathTerminates c7_env minijail_new 16 (List.replicate 16 0) [47, 108] :=
  ⟨fun _ _ _ _ _ _ _ h => getPathBig_fuel h, c7_cycle_diverges⟩

/-- A two-hop chain: /s is a symlink to the regular file /f. -/
def c7_chain_env : Env :=
  { kind := fun p =>
      if p = [47, 115] then .lnk [47, 102]
      else if p = [47, 102] then .reg else .missing,
    cwd := [47] }

def c7_buf1 : List Nat :=
  (resolve_path c7_chain_env minijail_new 16 (List.replicate 16 0) [47, 115]).2

def c7_buf2 : List Nat :=
  (resolve_path c7_chain_env minijail_new 16 c7_buf1 [47, 102]).2

/-- Witness for the amended C7: the resolver follows the one-symlink chain
/s -> /f down to the regular file, through the soundness half applied at a
concrete big-step derivation. -/
theorem c7_symlink_termination_amended_witness :
    ∃ fuel, minijail_get_path_fuel c7_chain_env minijail_new 16 fuel
      (List.replicate 16 0) [47, 115] = .done 0 c7_buf2 :=
  c7_symlink_termination_amended.1 c7_chain_env minijail_new 16
    (List.replicate 16 0) [47, 115] 0 c7_buf2
    (@GetPathBig.step c7_chain_env minijail_new 16 (List.replicate 16 0)
      [47, 115] c7_buf1 [47, 102] 0 c7_buf2 (by decide) (by decide)
      (@GetPathBig.reg c7_chain_env minijail_new 16 c7_buf1 [47, 102] c7_buf2
        (by decide) (by decide)))

end MJ
